import Mathlib

/-!
Verification of the ntag424-crypto repository: a shallow embedding of the
NTAG424 SDM codec (profiles, key-derivation dispatch, PICC build/extract,
encoder and decoder pipelines) together with proofs of the specification
claims.

Modelling conventions:
* JavaScript `Buffer` values are `List Nat` with each entry a byte (< 256).
* JavaScript strings carrying binary data are modelled by their UTF-8 byte
  lists; quote characters inside error-message literals are omitted.
* The external cryptographic primitives (node `crypto` AES-128-CBC with
  PKCS#7 auto-padding, `node-aes-cmac`, `hkdfSync`, `pbkdf2Sync`,
  `createHash`) are abstracted as a `CryptoPrims` bundle carrying the
  round-trip and output-length facts the audited libraries guarantee.
  Everything written in the repository itself is translated directly.
* Thrown JS errors are modelled with `Except JsError`; a `try/catch` block
  is `Except` case analysis.
-/

namespace Ntag424

/-- Byte strings: lists of naturals, well-formed when every entry is < 256. -/
abbrev Bytes := List Nat

/-- `Buffer.alloc(n, 0)`. -/
def zeros (n : Nat) : Bytes := List.replicate n 0

/-- UTF-8 bytes of an ASCII string literal (`Buffer.from(s, 'utf8')`). -/
def strBytes (s : String) : Bytes := s.toList.map Char.toNat

/-- Value of one hexadecimal character, `none` when the character is not
hexadecimal (the `[0-9A-Fa-f]` character class used by the source). -/
def hexDigitVal (c : Char) : Option Nat :=
  let n := c.toNat
  if 48 ≤ n ∧ n ≤ 57 then some (n - 48)
  else if 65 ≤ n ∧ n ≤ 70 then some (n - 65 + 10)
  else if 97 ≤ n ∧ n ≤ 102 then some (n - 97 + 10)
  else none

def isHexChar (c : Char) : Bool := (hexDigitVal c).isSome

/-- Parse pairs of hex characters into bytes (`Buffer.from(s, 'hex')` on a
validated even-length hex string). -/
def hexPairsToBytes : List Char → Option Bytes
  | [] => some []
  | [_] => none
  | c1 :: c2 :: rest => do
      let h ← hexDigitVal c1
      let l ← hexDigitVal c2
      let tail ← hexPairsToBytes rest
      pure ((16 * h + l) :: tail)

def hexToBytes (s : String) : Option Bytes := hexPairsToBytes s.toList

/-- Upper-case hex digit for a value < 16. -/
def hexDigitUpper (n : Nat) : Char :=
  if n < 10 then Char.ofNat ('0'.toNat + n) else Char.ofNat ('A'.toNat + n - 10)

/-- Two upper-case hex characters of one byte. -/
def byteHexUpper (b : Nat) : List Char := [hexDigitUpper (b / 16), hexDigitUpper (b % 16)]

/-- `buffer.toString('hex').toUpperCase()`. -/
def bytesToHexUpper (bs : Bytes) : String := String.mk (bs.map byteHexUpper).flatten

/-- `n.toString(16).toUpperCase()` for a byte value (used for the data tag). -/
def jsHexStrUpper (n : Nat) : String :=
  if n < 16 then String.mk [hexDigitUpper n] else String.mk (byteHexUpper n)

/-- Big-endian 3-byte encoding (`buffer.writeUIntBE(n, 0, 3)`); the source
validates `n ≤ 0xFFFFFF` before calling it. -/
def beBytes3 (n : Nat) : Bytes := [n / 65536 % 256, n / 256 % 256, n % 256]

/-- `buffer.readUIntBE(0, len)`. -/
def readUIntBE (bs : Bytes) (len : Nat) : Nat :=
  (bs.take len).foldl (fun acc b => acc * 256 + b) 0

/-- `Encoder._counterToNumber`: `buffer.readUIntBE(0, Math.min(length, 3))`. -/
def counterToNumber (b : Bytes) : Nat := readUIntBE b (min b.length 3)

/-- Write `src` into `dst` starting at `off`; models the JS copy loops, which
are only executed after the caller checked `off + src.length ≤ dst.length`. -/
def bufCopy (dst : Bytes) (off : Nat) (src : Bytes) : Bytes :=
  dst.take off ++ src ++ dst.drop (off + src.length)

/-- `hexString.replace(/\0+$/, '')` at byte level: strip trailing zero bytes. -/
def stripTrailingZeros (bs : Bytes) : Bytes :=
  (bs.reverse.dropWhile (· == 0)).reverse

/-- JS `x || d` for numeric profile fields (0 and `undefined` are falsy; an
absent field is modelled as 0). -/
def jsDefault (n d : Nat) : Nat := if n == 0 then d else n

/-- JS truthiness of an optional string field (`null`/`undefined`/`''` are
falsy). -/
def jsTruthyStr : Option String → Bool
  | none => false
  | some s => !(s == "")

/-- `array.join(', ')`. -/
def joinComma : List String → String
  | [] => ""
  | [x] => x
  | x :: xs => x ++ ", " ++ joinComma xs

/-- Does the string contain the substring `://` (dispatch between URL and
query-string parsing in `_parseInput`)? -/
def hasProtocolSep : List Char → Bool
  | ':' :: '/' :: '/' :: _ => true
  | _ :: rest => hasProtocolSep rest
  | [] => false

/-- The structured error taxonomy of `error-types.js`; each constructor keeps
the message. Plain `new Error(...)` throws are `generic`. -/
inductive JsError where
  | validation (message : String)
  | encryption (message : String)
  | decryption (message : String)
  | sdmProfile (message : String)
  | security (message : String)
  | generic (message : String)
deriving Repr, DecidableEq

def JsError.message : JsError → String
  | .validation m => m
  | .encryption m => m
  | .decryption m => m
  | .sdmProfile m => m
  | .security m => m
  | .generic m => m

/-- `Except.mapError` specialised to our error type (a `catch` that rewraps). -/
def exMapErr (f : JsError → JsError) : Except JsError α → Except JsError α
  | .ok a => .ok a
  | .error e => .error (f e)

/-- `MemoryManager.timingSafeEqual`: length check, then constant-time byte
comparison (functionally plain equality). -/
def timingSafeEqual (a b : Bytes) : Bool := a.length == b.length && a == b

/-- The external cryptographic primitives used by the repository, together
with the functional guarantees of the audited libraries: AES-128-CBC with
PKCS#7 auto-padding is length-regular and invertible, AES-CMAC returns 16
bytes, HKDF/PBKDF2 return the requested length, the hash (SHA-256) returns
32 bytes, and all outputs are byte-valued. -/
structure CryptoPrims where
  cbcEnc : Bytes → Bytes → Bytes
  cbcDec : Bytes → Bytes → Option Bytes
  cmacFn : Bytes → Bytes → Bytes
  hkdfFn : Bytes → Bytes → Bytes → Nat → Bytes
  pbkdf2Fn : Bytes → Bytes → Nat → Nat → Bytes
  hashFn : Bytes → Bytes
  cbcEnc_len : ∀ k x, (cbcEnc k x).length = x.length + (16 - x.length % 16)
  cbcDec_enc : ∀ k x, cbcDec k (cbcEnc k x) = some x
  cbcEnc_bytes : ∀ k x, (∀ b ∈ x, b < 256) → ∀ b ∈ cbcEnc k x, b < 256
  cmacFn_len : ∀ k x, (cmacFn k x).length = 16
  cmacFn_bytes : ∀ k x, ∀ b ∈ cmacFn k x, b < 256
  hkdfFn_len : ∀ ikm salt info n, (hkdfFn ikm salt info n).length = n
  pbkdf2Fn_len : ∀ pw salt iter n, (pbkdf2Fn pw salt iter n).length = n
  hashFn_len : ∀ x, (hashFn x).length = 32

/-- An SDM profile (`sdm-config.js`). Numeric layout fields that a JS profile
object leaves `undefined` are modelled as 0 (both are falsy under the `|| d`
defaulting used by the encoder; the decoder only reads a layout field when the
corresponding `include*` flag is set, and every predefined profile defines the
fields it uses). -/
structure SDMProfile where
  name : String
  includeUID : Bool
  includeCounter : Bool
  includeFileData : Bool
  piccDataLength : Nat
  uidOffset : Nat := 0
  uidLength : Nat := 0
  counterOffset : Nat := 0
  counterLength : Nat := 0
  encFileDataLength : Nat := 0
deriving Repr, DecidableEq

namespace SDMConfig

def uidOnly : SDMProfile :=
  { name := "uidOnly", includeUID := true, includeCounter := false,
    includeFileData := false, piccDataLength := 16, uidOffset := 1, uidLength := 7 }

def counterOnly : SDMProfile :=
  { name := "counterOnly", includeUID := false, includeCounter := true,
    includeFileData := false, piccDataLength := 16, counterOffset := 1, counterLength := 3 }

def uidCounter : SDMProfile :=
  { name := "uidCounter", includeUID := true, includeCounter := true,
    includeFileData := false, piccDataLength := 16, uidOffset := 1, uidLength := 7,
    counterOffset := 8, counterLength := 3 }

def full : SDMProfile :=
  { name := "full", includeUID := true, includeCounter := true,
    includeFileData := true, piccDataLength := 16, uidOffset := 1, uidLength := 7,
    counterOffset := 8, counterLength := 3, encFileDataLength := 16 }

/-- The predefined profile table (`SDMConfig.profiles`). -/
def profiles : List (String × SDMProfile) :=
  [("uidOnly", uidOnly), ("counterOnly", counterOnly),
   ("uidCounter", uidCounter), ("full", full)]

def lookupProfile (s : String) : Option SDMProfile :=
  (profiles.find? (fun p => p.1 == s)).map (·.2)

/-- `SDMConfig.getAvailableProfiles()`. -/
def getAvailableProfiles : List String := profiles.map (·.1)

/-- A JS argument as seen by `getProfile`: a string, `null`, `undefined`, or
some non-string value. -/
inductive JsArg where
  | jstr (s : String)
  | jnull
  | jundefined
  | jnonstring
deriving Repr, DecidableEq

/-- `SDMConfig.getProfile` (part_007): a falsy or non-string name yields the
default `uidCounter` profile; an unknown non-empty string name throws
`SDMProfileError`. -/
def getProfile : JsArg → Except JsError SDMProfile
  | .jstr s =>
      if s == "" then .ok uidCounter
      else
        match lookupProfile s with
        | some p => .ok p
        | none => .error (.sdmProfile ("Unknown SDM profile: " ++ s))
  | _ => .ok uidCounter

/-- `SDMConfig.validateProfile` (part_007). The JS `typeof x !== 'number'`
guards cannot fire in the typed model; the numeric comparisons are kept. -/
def validateProfile (p : SDMProfile) : Bool × List String :=
  let errors : List String :=
    (if p.piccDataLength < 1 then ["piccDataLength must be a positive number"] else []) ++
    (if p.includeUID then
       (if p.uidLength < 1 then
          ["uidLength must be a positive number when includeUID is true"] else []) ++
       (if p.uidOffset + p.uidLength > p.piccDataLength then
          ["UID data extends beyond PICC data length"] else [])
     else []) ++
    (if p.includeCounter then
       (if p.counterLength < 1 then
          ["counterLength must be a positive number when includeCounter is true"] else []) ++
       (if p.counterOffset + p.counterLength > p.piccDataLength then
          ["Counter data extends beyond PICC data length"] else [])
     else []) ++
    (if p.includeUID ∧ p.includeCounter then
       (if (p.uidOffset < p.counterOffset ∧ p.uidOffset + p.uidLength > p.counterOffset) ∨
           (p.counterOffset < p.uidOffset ∧ p.counterOffset + p.counterLength > p.uidOffset) then
          ["UID and counter data regions overlap"] else [])
     else []) ++
    (if p.includeFileData then
       (if p.encFileDataLength < 1 then
          ["encFileDataLength must be a positive number when includeFileData is true"] else [])
     else [])
  (errors.isEmpty, errors)

/-- The duck-typed `data` argument of `validateOperationWithProfile`. -/
structure OpData where
  uid : Option Bytes := none
  counter : Option Bytes := none
  fileData : Option Bytes := none
  picc : Option String := none
  enc : Option String := none
  cmac : Option String := none

/-- `SDMConfig.validateOperationWithProfile` (part_007): collects
operation/profile incompatibilities and throws `SDMProfileError` when any
exist. `Buffer` arguments are truthy in JS even when empty, so presence of
`uid`/`counter`/`fileData` is `Option.isSome`; the string fields of a decrypt
payload use JS string truthiness. -/
def validateOperationWithProfile (operation : String) (profile : SDMProfile)
    (data : OpData) : Except JsError Unit :=
  let errors : List String :=
    (if operation == "encrypt" then
       (if data.fileData.isSome ∧ ¬profile.includeFileData then
          ["Profile " ++ profile.name ++
           " does not support file data encryption. Use full profile instead."] else []) ++
       (if data.uid.isNone ∧ profile.includeUID then
          ["Profile " ++ profile.name ++ " requires UID but none provided"] else []) ++
       (if data.counter.isNone ∧ profile.includeCounter then
          ["Profile " ++ profile.name ++ " requires counter but none provided"] else [])
     else []) ++
    (if operation == "decrypt" then
       (if jsTruthyStr data.enc ∧ ¬profile.includeFileData then
          ["Profile " ++ profile.name ++
           " does not support encrypted file data. Use full profile instead."] else []) ++
       (if ¬jsTruthyStr data.picc then ["PICC data is required for decryption"] else []) ++
       (if ¬jsTruthyStr data.cmac then ["CMAC data is required for decryption"] else [])
     else [])
  if errors.isEmpty then .ok ()
  else .error (.sdmProfile ("SDM profile validation failed: " ++ joinComma errors))

end SDMConfig

/-- A session-key pair as returned by the key-derivation strategies. -/
structure SessionKeys where
  encKey : Bytes
  macKey : Bytes
  method : String
deriving Repr, DecidableEq

namespace KeyDerivation

/-- Shared body of `buildSV1`/`buildSV2` with the default options
(`svLength = 32`, label fixed): a 32-byte zero buffer receiving the 6-byte
label, then the diversification UID, then the counter, each truncated to the
remaining room. -/
def svBuild (label uid ctr : Bytes) : Bytes :=
  let sv := bufCopy (zeros 32) 0 label
  let off := label.length
  let uidCopy := uid.take (min uid.length (32 - off))
  let sv := bufCopy sv off uidCopy
  let off2 := off + uidCopy.length
  bufCopy sv off2 (ctr.take (min ctr.length (32 - off2)))

/-- `KeyDerivation.buildSV1` with default options (label `3CC300010080`). -/
def buildSV1 (uid ctr : Bytes) : Bytes :=
  svBuild [0x3C, 0xC3, 0x00, 0x01, 0x00, 0x80] uid ctr

/-- `KeyDerivation.buildSV2` with default options (label `3CC300010081`). -/
def buildSV2 (uid ctr : Bytes) : Bytes :=
  svBuild [0x3C, 0xC3, 0x00, 0x01, 0x00, 0x81] uid ctr

/-- `KeyDerivation.ntag424Official` with default options (`useCMAC = true`,
`keyLength = 16`): CMAC the two session vectors under the master key. -/
def ntag424Official (P : CryptoPrims) (masterKey uid ctr : Bytes) :
    Except JsError SessionKeys :=
  if masterKey.length ≠ 16 then
    .error (.validation "Master key must be a 16-byte Buffer")
  else
    .ok { encKey := (P.cmacFn masterKey (buildSV1 uid ctr)).take 16,
          macKey := (P.cmacFn masterKey (buildSV2 uid ctr)).take 16,
          method := "ntag424-official" }

/-- `KeyDerivation.hkdf` with default options (SHA-256, 32-byte output,
`salt = uid ‖ counter`, `info = "NTAG424-SESSION-KEYS"`). -/
def hkdf (P : CryptoPrims) (masterKey uid ctr : Bytes) :
    Except JsError SessionKeys :=
  let out := P.hkdfFn masterKey (uid ++ ctr) (strBytes "NTAG424-SESSION-KEYS") 32
  .ok { encKey := out.take 16, macKey := out.drop 16, method := "hkdf" }

/-- `KeyDerivation.pbkdf2` with default options (10000 iterations, SHA-256,
32-byte output, `salt = "NTAG424" ‖ uid ‖ counter`). -/
def pbkdf2 (P : CryptoPrims) (masterKey uid ctr : Bytes) :
    Except JsError SessionKeys :=
  let out := P.pbkdf2Fn masterKey (strBytes "NTAG424" ++ uid ++ ctr) 10000 32
  .ok { encKey := out.take 16, macKey := out.drop 16, method := "pbkdf2" }

/-- `KeyDerivation.simpleHash` with default options (SHA-256, 16-byte keys):
hash `masterKey ‖ uid ‖ counter ‖ "ENC"` and the `"MAC"` variant. -/
def simpleHash (P : CryptoPrims) (masterKey uid ctr : Bytes) :
    Except JsError SessionKeys :=
  .ok { encKey := (P.hashFn (masterKey ++ uid ++ ctr ++ strBytes "ENC")).take 16,
        macKey := (P.hashFn (masterKey ++ uid ++ ctr ++ strBytes "MAC")).take 16,
        method := "simple-hash" }

/-- The string-keyed dispatch table shared by `Encoder._deriveKeys` and
`Decoder._deriveKeys`; `none` models an unknown method name. -/
def dispatch (P : CryptoPrims) (masterKey uid ctr : Bytes) (method : String) :
    Option (Except JsError SessionKeys) :=
  if method == "ntag424Official" then some (ntag424Official P masterKey uid ctr)
  else if method == "hkdf" then some (hkdf P masterKey uid ctr)
  else if method == "pbkdf2" then some (pbkdf2 P masterKey uid ctr)
  else if method == "simpleHash" then some (simpleHash P masterKey uid ctr)
  else none

end KeyDerivation

def validMethods : List String := ["ntag424Official", "hkdf", "pbkdf2", "simpleHash"]

namespace AES

/-- `AES.cbcEncrypt` (validated copy, zero IV): argument checks then the
library AES-128-CBC encryption with PKCS#7 auto-padding. -/
def cbcEncrypt (P : CryptoPrims) (key data : Bytes) : Except JsError Bytes :=
  if key.length ≠ 16 then .error (.validation "Key must be a 16-byte Buffer")
  else .ok (P.cbcEnc key data)

/-- `AES.cbcDecrypt` (validated copy, zero IV): argument checks then the
library decryption; a padding failure in the library is a `SecurityError`. -/
def cbcDecrypt (P : CryptoPrims) (key data : Bytes) : Except JsError Bytes :=
  if key.length ≠ 16 then .error (.validation "Key must be a 16-byte Buffer")
  else if data.length == 0 then .error (.validation "Data cannot be empty")
  else if data.length % 16 ≠ 0 then
    .error (.validation "Data length must be multiple of 16 bytes")
  else
    match P.cbcDec key data with
    | some x => .ok x
    | none => .error (.security "AES CBC decryption failed: bad decrypt")

end AES

namespace CMAC

/-- `CMAC.calculate`: key check then the library AES-CMAC. -/
def calculate (P : CryptoPrims) (key data : Bytes) : Except JsError Bytes :=
  if key.length ≠ 16 then .error (.validation "Key must be a 16-byte Buffer")
  else .ok (P.cmacFn key data)

/-- `CMAC.verify`: compute, truncate to the expected length and compare in
constant time; every failure returns `false` rather than throwing. -/
def verify (P : CryptoPrims) (key data expectedMac : Bytes) : Bool :=
  if key.length ≠ 16 then false
  else
    let trunc := (P.cmacFn key data).take expectedMac.length
    if trunc.length ≠ expectedMac.length then false
    else timingSafeEqual trunc expectedMac

end CMAC

/-- The canonical parsed input triple (plus the informational counter hint)
produced by the URL / query-string tokenizers; `none` models a `null` field. -/
structure ParsedData where
  picc : Option String := none
  enc : Option String := none
  cmac : Option String := none
  counter : Option String := none
deriving Repr, DecidableEq

/-- The generic URL / query-string tokenizer (Node `URL` and
`URLSearchParams`), out of scope per the spec and abstracted: `parseUrl`
returns `none` exactly when the `URL` constructor throws, `parseQuery` never
throws. -/
structure UrlLib where
  parseUrl : String → Option ParsedData
  parseQuery : String → ParsedData

/-- Structured data extracted from a decrypted PICC block
(`DataParser.extractPiccData` result). -/
structure PiccInfo where
  dataTag : Option Nat
  uid : Option Bytes
  readCounter : Option Bytes
  readCounterInt : Option Int
  padding : Option Bytes
  raw : Bytes
deriving Repr, DecidableEq

namespace DataParser

/-- `DataParser.validateHexString` (no expected length): non-empty and all
characters in `[0-9A-Fa-f]`. -/
def validateHexString (s : String) : Bool :=
  !(s == "") && s.toList.all isHexChar

/-- `DataParser.hexToBuffer`: presence, hex-character and even-length checks,
then `Buffer.from(s, 'hex')`. -/
def hexToBuffer (s : Option String) (fieldName : String) : Except JsError Bytes :=
  match s with
  | none => .error (.validation (fieldName ++ " must be a non-empty string"))
  | some str =>
    if str == "" then .error (.validation (fieldName ++ " must be a non-empty string"))
    else if ¬validateHexString str then
      .error (.validation (fieldName ++ " contains invalid hex characters"))
    else if str.length % 2 ≠ 0 then
      .error (.validation (fieldName ++ " hex string must have even length"))
    else
      match hexToBytes str with
      | some bs => .ok bs
      | none => .error (.validation (fieldName ++ " contains invalid hex characters"))

/-- `DataParser.extractPiccData` on a resolved profile object: data tag from
byte 0, UID and counter slices when the profile includes them and the block
is long enough, the counter interpreted big-endian, and the bytes past the
used ranges as padding. -/
def extractPiccData (dp : Bytes) (config : SDMProfile) : PiccInfo :=
  let uid :=
    if config.includeUID ∧ dp.length ≥ config.uidOffset + config.uidLength then
      some ((dp.drop config.uidOffset).take config.uidLength)
    else none
  let readCounter :=
    if config.includeCounter ∧ dp.length ≥ config.counterOffset + config.counterLength then
      some ((dp.drop config.counterOffset).take config.counterLength)
    else none
  let readCounterInt : Option Int :=
    match readCounter with
    | none => none
    | some rc =>
        some (Int.ofNat
          (if rc.length ≥ 3 then readUIntBE rc 3
           else if rc.length == 2 then readUIntBE rc 2
           else if rc.length == 1 then rc.headD 0
           else 0))
  let dataEnd :=
    max (if config.includeUID then config.uidOffset + config.uidLength else 0)
        (if config.includeCounter then config.counterOffset + config.counterLength else 0)
  { dataTag := dp.head?
    uid := uid
    readCounter := readCounter
    readCounterInt := readCounterInt
    padding := if dp.length > dataEnd then some (dp.drop dataEnd) else none
    raw := dp }

/-- `DataParser.parseURL`: non-empty string check, then the library URL
parser; a parser throw becomes a `ValidationError`. -/
def parseURL (U : UrlLib) (s : String) : Except JsError ParsedData :=
  if s == "" then .error (.validation "URL must be a non-empty string")
  else
    match U.parseUrl s with
    | some d => .ok d
    | none => .error (.validation "Invalid URL format: Invalid URL")

/-- `DataParser.parseQueryString`: non-empty string check, then the library
query parser (which never throws). -/
def parseQueryString (U : UrlLib) (s : String) : Except JsError ParsedData :=
  if s == "" then .error (.validation "Query string must be a non-empty string")
  else .ok (U.parseQuery s)

/-- `DataParser.validateParsedData` with the options used by the decoder
(`requirePicc`, `requireCmac`, `strictHex` all true). -/
def validateParsedData (d : ParsedData) : Bool × List String :=
  let errors : List String :=
    (if ¬jsTruthyStr d.picc then ["Missing PICC data"] else []) ++
    (if ¬jsTruthyStr d.cmac then ["Missing CMAC data"] else []) ++
    (if jsTruthyStr d.picc ∧ ¬validateHexString (d.picc.getD "") then
       ["Invalid PICC hex format"] else []) ++
    (if jsTruthyStr d.cmac ∧ ¬validateHexString (d.cmac.getD "") then
       ["Invalid CMAC hex format"] else []) ++
    (if jsTruthyStr d.enc ∧ ¬validateHexString (d.enc.getD "") then
       ["Invalid ENC hex format"] else [])
  (errors.isEmpty, errors)

end DataParser

/-- The decoder profile option: a profile name string or a custom profile
object. -/
inductive ProfileRef where
  | byName (s : String)
  | byObj (p : SDMProfile)
deriving Repr, DecidableEq

/-- Decoder options with their documented defaults. -/
structure DecoderOptions where
  keyDerivationMethod : String := "ntag424Official"
  sdmProfile : ProfileRef := .byName "uidCounter"
  validateCMAC : Bool := true
  strictValidation : Bool := false
deriving Repr, DecidableEq

/-- A decoder instance: the parsed 16-byte master key and the merged options
(`{...this.options, ...customOptions}` is modelled by passing the already
merged record). -/
structure Decoder where
  masterKey : Bytes
  options : DecoderOptions
deriving Repr, DecidableEq

/-- Input accepted by `Decoder.decrypt`: a string (URL or query string), a
structured object, or any other value. -/
inductive DecInput where
  | str (s : String)
  | obj (d : ParsedData)
  | other
deriving Repr, DecidableEq

/-- The informational session-keys block of a decode result. -/
structure SessionKeysHex where
  encKey : String
  macKey : String
  derivationMethod : String
deriving Repr, DecidableEq

/-- The successful payload assembled by `Decoder._performDecryption`.
`encryptedFileData` keeps the byte view of the JS string (decrypted file
bytes with trailing zero bytes stripped). -/
structure DecodeSuccess where
  uid : Option String
  readCounter : Option Int
  dataTag : Option String
  encryptedFileData : Option Bytes
  cmacValid : Bool
  sessionKeys : SessionKeysHex
  rawDecryptedPicc : String
  rawDecryptedEnc : Option String
  piccInfo : PiccInfo
deriving Repr, DecidableEq

/-- The object returned by `Decoder.decrypt`: either the success payload
spread into a `success: true` record, or `success: false` with the caught
error message. Fields that are absent on the failure object are `none`. -/
structure DecodeResult where
  success : Bool
  error : Option String := none
  uid : Option String := none
  readCounter : Option Int := none
  dataTag : Option String := none
  encryptedFileData : Option Bytes := none
  cmacValid : Option Bool := none
  sessionKeys : Option SessionKeysHex := none
  rawDecryptedPicc : Option String := none
  rawDecryptedEnc : Option String := none
  piccInfo : Option PiccInfo := none
deriving Repr, DecidableEq

namespace Decoder

/-- `Decoder._deriveKeys` (simple copy): dispatch by method name, unknown
names throw a plain `Error`. -/
def deriveKeys (P : CryptoPrims) (masterKey uid ctr : Bytes) (method : String) :
    Except JsError SessionKeys :=
  match KeyDerivation.dispatch P masterKey uid ctr method with
  | some r => r
  | none => .error (.generic ("Unknown key derivation method: " ++ method))

/-- `Decoder._isValidDecryption` (identical in both decoder copies): data tag
`0xC7`, block length at least 11, UID (when extracted) starting with `0x04`,
counter (when extracted) within `[0, 16777215]`. An extracted empty UID is a
truthy empty `Buffer` in JS whose first byte is `undefined`, hence invalid. -/
def isValidDecryption (decryptedPicc : Bytes) (info : PiccInfo) : Bool :=
  if info.dataTag ≠ some 0xC7 then false
  else if decryptedPicc.length < 11 then false
  else if (match info.uid with
           | some u => !(u.head? == some 0x04)
           | none => false) then false
  else if (match info.readCounterInt with
           | some n => decide (n < 0) || decide (n > 16777215)
           | none => false) then false
  else true

/-- `Decoder._extractFileData`: UTF-8 view of the decrypted bytes with
trailing NUL characters stripped, `null` when nothing remains. -/
def extractFileData : Option Bytes → Option Bytes
  | none => none
  | some d =>
      let s := stripTrailingZeros d
      if s.length > 0 then some s else none

/-- `Decoder._parseInput` (simple copy): strings containing `://` go through
the URL parser, other strings through the query-string parser, objects pass
through; everything else is an invalid input format. All parse errors are
rethrown with the `Input parsing failed:` prefix. -/
def parseInput (U : UrlLib) : DecInput → Except JsError ParsedData
  | .obj d => .ok d
  | .str s =>
      exMapErr (fun e => .generic ("Input parsing failed: " ++ e.message))
        (if hasProtocolSep s.toList then DataParser.parseURL U s
         else DataParser.parseQueryString U s)
  | .other => .error (.generic ("Input parsing failed: " ++ "Invalid input format"))

/-- `Decoder._validateInput` (strict mode): throw with the joined error list
when `validateParsedData` fails. -/
def validateInput (d : ParsedData) : Except JsError Unit :=
  let v := DataParser.validateParsedData d
  if v.1 then .ok () else .error (.generic (joinComma v.2))

/-- The body of `Decoder._performDecryption` (simple copy) before its
catch-all wrapper: zero-vector key derivation, PICC decryption, extraction,
structural validation, optional file-data decryption, optional CMAC check. -/
def performDecryptionBody (P : CryptoPrims) (masterKey : Bytes)
    (piccData : Bytes) (encData : Option Bytes) (cmacData : Bytes)
    (sdmConfig : SDMProfile) (opts : DecoderOptions) :
    Except JsError DecodeSuccess := do
  let sessionKeys ← deriveKeys P masterKey (zeros 7) (zeros 3) opts.keyDerivationMethod
  let decryptedPicc ← AES.cbcDecrypt P sessionKeys.encKey piccData
  let piccInfo := DataParser.extractPiccData decryptedPicc sdmConfig
  if ¬isValidDecryption decryptedPicc piccInfo then
    throw (.generic "Invalid decrypted data structure")
  let decryptedEnc ←
    match encData with
    | none => pure (none : Option Bytes)
    | some ed =>
        match AES.cbcDecrypt P sessionKeys.encKey ed with
        | .ok x => pure (some x)
        | .error e => throw (.generic ("File data decryption failed: " ++ e.message))
  let cmacValid :=
    if opts.validateCMAC then
      CMAC.verify P sessionKeys.macKey (piccData ++ encData.getD []) cmacData
    else true
  return {
      uid := piccInfo.uid.map bytesToHexUpper
      readCounter := piccInfo.readCounterInt
      dataTag := piccInfo.dataTag.map jsHexStrUpper
      encryptedFileData := extractFileData decryptedEnc
      cmacValid := cmacValid
      sessionKeys :=
        { encKey := bytesToHexUpper sessionKeys.encKey
          macKey := bytesToHexUpper sessionKeys.macKey
          derivationMethod := sessionKeys.method }
      rawDecryptedPicc := bytesToHexUpper decryptedPicc
      rawDecryptedEnc := decryptedEnc.map bytesToHexUpper
      piccInfo := piccInfo }

/-- `Decoder._performDecryption` (simple copy): the body with its catch-all
`Zero vector decryption failed:` rewrap. -/
def performDecryption (P : CryptoPrims) (masterKey : Bytes)
    (piccData : Bytes) (encData : Option Bytes) (cmacData : Bytes)
    (sdmConfig : SDMProfile) (opts : DecoderOptions) :
    Except JsError DecodeSuccess :=
  exMapErr (fun e => .generic ("Zero vector decryption failed: " ++ e.message))
    (performDecryptionBody P masterKey piccData encData cmacData sdmConfig opts)

/-- The fallible pipeline inside `Decoder.decrypt` (simple copy): parse the
input, optionally strict-validate, convert the hex fields, resolve the
profile and run `_performDecryption`. -/
def decryptCore (P : CryptoPrims) (U : UrlLib) (masterKey : Bytes)
    (opts : DecoderOptions) (input : DecInput) : Except JsError DecodeSuccess := do
  let data ← parseInput U input
  if opts.strictValidation then validateInput data
  let piccData ← DataParser.hexToBuffer data.picc "PICC data"
  let encData ←
    if jsTruthyStr data.enc then
      (DataParser.hexToBuffer data.enc "ENC data").map some
    else pure none
  let cmacData ← DataParser.hexToBuffer data.cmac "CMAC data"
  let sdmConfig ←
    match opts.sdmProfile with
    | .byName s => SDMConfig.getProfile (.jstr s)
    | .byObj p => pure p
  performDecryption P masterKey piccData encData cmacData sdmConfig opts

/-- `Decoder.decrypt` (simple copy): every internal failure is caught and
returned as `success: false` with the error message; a success spreads the
payload into the result object. -/
def decrypt (P : CryptoPrims) (U : UrlLib) (dec : Decoder) (input : DecInput) :
    DecodeResult :=
  match decryptCore P U dec.masterKey dec.options input with
  | .ok r =>
      { success := true
        uid := r.uid
        readCounter := r.readCounter
        dataTag := r.dataTag
        encryptedFileData := r.encryptedFileData
        cmacValid := some r.cmacValid
        sessionKeys := some r.sessionKeys
        rawDecryptedPicc := some r.rawDecryptedPicc
        rawDecryptedEnc := r.rawDecryptedEnc
        piccInfo := some r.piccInfo }
  | .error e => { success := false, error := some e.message }

/-- The `Decoder` constructor (simple copy): master-key format checks and
`_validateOptions`; failures are rethrown with the
`Decoder initialization failed:` prefix. -/
def mk? (masterKey : String) (opts : DecoderOptions) : Except JsError Decoder :=
  exMapErr (fun e => .generic ("Decoder initialization failed: " ++ e.message)) <| do
    if masterKey.length ≠ 32 then
      throw (.generic "Master key must be a 32-character hex string")
    if ¬masterKey.toList.all isHexChar then
      throw (.generic "Master key contains invalid hex characters")
    if ¬validMethods.contains opts.keyDerivationMethod then
      throw (.generic ("Invalid key derivation method: " ++ opts.keyDerivationMethod))
    match opts.sdmProfile with
    | .byName s =>
        if ¬SDMConfig.getAvailableProfiles.contains s then
          throw (.generic ("Invalid SDM profile: " ++ s))
    | .byObj p =>
        let v := SDMConfig.validateProfile p
        if ¬v.1 then throw (.generic ("Invalid SDM profile: " ++ joinComma v.2))
    return { masterKey := (hexToBytes masterKey).getD [], options := opts }

end Decoder

namespace Decoder2

/-- `Decoder._deriveKeys` (secure copy): unknown method names throw
`DecryptionError`. -/
def deriveKeys (P : CryptoPrims) (masterKey uid ctr : Bytes) (method : String) :
    Except JsError SessionKeys :=
  match KeyDerivation.dispatch P masterKey uid ctr method with
  | some r => r
  | none => .error (.decryption ("Unknown key derivation method: " ++ method))

/-- `Decoder._hexToBuffer` (secure copy): the same checks as
`DataParser.hexToBuffer`, but every failure is rewrapped as a
`DecryptionError` with the conversion prefix. -/
def hexToBuffer (s : Option String) (fieldName : String) : Except JsError Bytes :=
  exMapErr (fun e => .decryption ("Failed to convert " ++ fieldName ++ " to Buffer: " ++ e.message))
    (DataParser.hexToBuffer s fieldName)

/-- `Decoder._parseInput` (secure copy): identical dispatch, failures
rewrapped as `DecryptionError`. -/
def parseInput (U : UrlLib) : DecInput → Except JsError ParsedData
  | .obj d => .ok d
  | .str s =>
      exMapErr (fun e => .decryption ("Input parsing failed: " ++ e.message))
        (if hasProtocolSep s.toList then DataParser.parseURL U s
         else DataParser.parseQueryString U s)
  | .other => .error (.decryption ("Input parsing failed: " ++ "Invalid input format"))

/-- The guarded block of `Decoder._performSecureDecryption` (secure copy):
zero-vector derivation, PICC decryption, extraction, structural validation,
profile-gated file-data decryption and explicit truncated-CMAC comparison.
Unlike the simple copy, a throwing CMAC computation aborts the decode. -/
def performBody (P : CryptoPrims) (masterKey : Bytes)
    (piccData : Bytes) (encData : Option Bytes) (cmacData : Bytes)
    (profile : SDMProfile) (opts : DecoderOptions) :
    Except JsError DecodeSuccess := do
  let sessionKeys ← deriveKeys P masterKey (zeros 7) (zeros 3) opts.keyDerivationMethod
  let decryptedPicc ← AES.cbcDecrypt P sessionKeys.encKey piccData
  let piccInfo := DataParser.extractPiccData decryptedPicc profile
  if ¬Decoder.isValidDecryption decryptedPicc piccInfo then
    throw (.decryption "Invalid decrypted data structure")
  let decryptedEnc ←
    match encData with
    | none => pure (none : Option Bytes)
    | some ed =>
        if ¬profile.includeFileData then
          throw (.decryption ("Profile " ++ profile.name ++ " does not support encrypted file data"))
        else
          match AES.cbcDecrypt P sessionKeys.encKey ed with
          | .ok x => pure (some x)
          | .error e => throw (.decryption ("File data decryption failed: " ++ e.message))
  let cmacValid ←
    if opts.validateCMAC then
      match CMAC.calculate P sessionKeys.macKey (piccData ++ encData.getD []) with
      | .ok mac => pure (timingSafeEqual (mac.take cmacData.length) cmacData)
      | .error e => throw (.decryption ("CMAC verification failed: " ++ e.message))
    else pure true
  return {
      uid := piccInfo.uid.map bytesToHexUpper
      readCounter := piccInfo.readCounterInt
      dataTag := piccInfo.dataTag.map jsHexStrUpper
      encryptedFileData := Decoder.extractFileData decryptedEnc
      cmacValid := cmacValid
      sessionKeys :=
        { encKey := bytesToHexUpper sessionKeys.encKey
          macKey := bytesToHexUpper sessionKeys.macKey
          derivationMethod := sessionKeys.method }
      rawDecryptedPicc := bytesToHexUpper decryptedPicc
      rawDecryptedEnc := decryptedEnc.map bytesToHexUpper
      piccInfo := piccInfo }

/-- `Decoder._performSecureDecryption` (secure copy): hex conversion of the
three fields, then the guarded block, whose non-`DecryptionError` failures
are rewrapped with the `Zero vector decryption failed:` prefix. -/
def performSecureDecryption (P : CryptoPrims) (masterKey : Bytes)
    (data : ParsedData) (profile : SDMProfile) (opts : DecoderOptions) :
    Except JsError DecodeSuccess := do
  let piccData ← hexToBuffer data.picc "PICC data"
  let encData ←
    if jsTruthyStr data.enc then (hexToBuffer data.enc "ENC data").map some
    else pure none
  let cmacData ← hexToBuffer data.cmac "CMAC data"
  exMapErr
    (fun e => match e with
      | .decryption m => .decryption m
      | e => .decryption ("Zero vector decryption failed: " ++ e.message))
    (performBody P masterKey piccData encData cmacData profile opts)

/-- The fallible pipeline inside `Decoder.decrypt` (secure copy): parse,
resolve the profile, validate the decrypt operation against it, then perform
the secure decryption. -/
def decryptCore (P : CryptoPrims) (U : UrlLib) (masterKey : Bytes)
    (opts : DecoderOptions) (input : DecInput) : Except JsError DecodeSuccess := do
  let data ← parseInput U input
  let profile ←
    match opts.sdmProfile with
    | .byName s => SDMConfig.getProfile (.jstr s)
    | .byObj p => pure p
  SDMConfig.validateOperationWithProfile "decrypt" profile
    { picc := data.picc, enc := data.enc, cmac := data.cmac }
  performSecureDecryption P masterKey data profile opts

/-- `Decoder.decrypt` (secure copy): all failures caught and returned as
`success: false` with the error message (the timing/performance metadata of
the source carries no decoded state and is not modelled). -/
def decrypt (P : CryptoPrims) (U : UrlLib) (dec : Decoder) (input : DecInput) :
    DecodeResult :=
  match decryptCore P U dec.masterKey dec.options input with
  | .ok r =>
      { success := true
        uid := r.uid
        readCounter := r.readCounter
        dataTag := r.dataTag
        encryptedFileData := r.encryptedFileData
        cmacValid := some r.cmacValid
        sessionKeys := some r.sessionKeys
        rawDecryptedPicc := some r.rawDecryptedPicc
        rawDecryptedEnc := r.rawDecryptedEnc
        piccInfo := some r.piccInfo }
  | .error e => { success := false, error := some e.message }

end Decoder2

/-- A UID argument to `Encoder.encrypt`: hex string, buffer, or other. -/
inductive UidArg where
  | hexStr (s : String)
  | buf (b : Bytes)
  | otherArg
deriving Repr, DecidableEq

/-- A counter argument to `Encoder.encrypt`: JS number (integral values
modelled by `Int`), buffer, or other. -/
inductive CounterArg where
  | num (n : Int)
  | buf (b : Bytes)
  | otherArg
deriving Repr, DecidableEq

/-- Encoder options; `sdmProfile := none` selects the source default
(`fileData ? 'full' : 'uidCounter'`). -/
structure EncOptions where
  keyDerivationMethod : String := "ntag424Official"
  sdmProfile : Option ProfileRef := none
deriving Repr, DecidableEq

/-- `encryptedData` block of an encode result. -/
structure EncryptedData where
  picc : String
  cmac : String
  enc : Option String := none
deriving Repr, DecidableEq

/-- `originalData` block of the validated encoder result (part_005): the
master key is replaced by the `[REDACTED]` literal. -/
structure OriginalData where
  uid : String
  scanCount : Nat
  masterKey : String
  keyDerivationMethod : String
  sdmProfile : String
  fileData : Option Bytes := none
deriving Repr, DecidableEq

/-- Result of the validated `Encoder.encrypt` (part_005); the timestamp
metadata is not modelled. -/
structure EncResult where
  originalData : OriginalData
  encryptedData : EncryptedData
deriving Repr, DecidableEq

/-- `originalData` block of the legacy helper encoder result (part_006): the
raw master key string is stored as-is. -/
structure SimpleOriginalData where
  uid : String
  scanCount : Nat
  masterKey : String
  keyDerivationMethod : String
  fileData : Option Bytes := none
deriving Repr, DecidableEq

/-- Result of the legacy helper `Encoder.encrypt` (part_006). -/
structure SimpleEncResult where
  originalData : SimpleOriginalData
  encryptedData : EncryptedData
deriving Repr, DecidableEq

namespace Encoder

/-- `Encoder._validateAndConvertUID` (validated copy; the legacy copy throws
the same messages as plain errors). -/
def validateAndConvertUID : UidArg → Except JsError Bytes
  | .buf b =>
      if b.length ≠ 7 then .error (.validation "UID buffer must be exactly 7 bytes")
      else .ok b
  | .hexStr s =>
      if s.length ≠ 14 then
        .error (.validation "UID hex string must be exactly 14 characters (7 bytes)")
      else if ¬s.toList.all isHexChar then
        .error (.validation "UID contains invalid hex characters")
      else .ok ((hexToBytes s).getD [])
  | .otherArg => .error (.validation "UID must be a 7-byte Buffer or 14-character hex string")

/-- `Encoder._validateAndConvertCounter`: a 3-byte buffer passes through; a
number must be an integer within `[0, 16777215]` and is written big-endian
(`Number.isInteger` holds of every `Int`). -/
def validateAndConvertCounter : CounterArg → Except JsError Bytes
  | .buf b =>
      if b.length ≠ 3 then .error (.validation "Counter buffer must be exactly 3 bytes")
      else .ok b
  | .num n =>
      if n < 0 ∨ n > 16777215 then
        .error (.validation "Counter must be an integer between 0 and 16777215 (2^24 - 1)")
      else .ok (beBytes3 n.toNat)
  | .otherArg => .error (.validation "Counter must be a number or 3-byte Buffer")

/-- `Encoder._buildPiccData`: a zeroed block of the profile length with the
`0xC7` tag at offset 0 and the UID/counter bytes copied at their profile
offsets; out-of-bounds layouts throw, and every failure leaves with the
`PICC data building failed:` prefix. -/
def buildPiccData (uid ctr : Bytes) (profile : SDMProfile) : Except JsError Bytes :=
  exMapErr (fun e => .encryption ("PICC data building failed: " ++ e.message)) <| do
    let picc := (zeros (jsDefault profile.piccDataLength 16)).set 0 0xC7
    let picc ←
      if profile.includeUID then do
        let uidStart := jsDefault profile.uidOffset 1
        let uidLen := min uid.length (jsDefault profile.uidLength 7)
        if uidStart + uidLen > picc.length then
          throw (.encryption "UID data extends beyond PICC data length")
        pure (bufCopy picc uidStart (uid.take uidLen))
      else pure picc
    let picc ←
      if profile.includeCounter then do
        let counterStart := jsDefault profile.counterOffset 8
        let counterLen := min ctr.length (jsDefault profile.counterLength 3)
        if counterStart + counterLen > picc.length then
          throw (.encryption "Counter data extends beyond PICC data length")
        pure (bufCopy picc counterStart (ctr.take counterLen))
      else pure picc
    return picc

/-- `Encoder._prepareFileData` (validated copy): zero-pad the bytes up to the
next multiple of 16. -/
def prepareFileData (fd : Bytes) : Bytes :=
  fd ++ zeros ((fd.length + 15) / 16 * 16 - fd.length)

/-- `Encoder._deriveKeys` (validated copy): unknown method names throw
`EncryptionError`. -/
def deriveKeys (P : CryptoPrims) (masterKey uid ctr : Bytes) (method : String) :
    Except JsError SessionKeys :=
  match KeyDerivation.dispatch P masterKey uid ctr method with
  | some r => r
  | none => .error (.encryption ("Unknown key derivation method: " ++ method))

/-- The try-block of the validated `Encoder.encrypt` (part_005): master-key
format checks, UID/counter conversion, profile resolution, operation
validation, PICC construction, zero-vector key derivation, AES-CBC
encryption of the PICC block and optional file data, 8-byte CMAC truncation,
and the result object with the master key redacted. -/
def encryptCore (P : CryptoPrims) (masterKey : String) (uid : UidArg)
    (scanCount : CounterArg) (fileData : Option Bytes) (opts : EncOptions) :
    Except JsError EncResult := do
  let method := opts.keyDerivationMethod
  let profileRef := opts.sdmProfile.getD
    (.byName (if fileData.isSome then "full" else "uidCounter"))
  if masterKey.length ≠ 32 then
    throw (.validation "Master key must be a 32-character hex string")
  if ¬masterKey.toList.all isHexChar then
    throw (.validation "Master key contains invalid hex characters")
  let uidBuffer ← validateAndConvertUID uid
  let counterBuffer ← validateAndConvertCounter scanCount
  let profile ←
    match profileRef with
    | .byName s => SDMConfig.getProfile (.jstr s)
    | .byObj p => pure p
  SDMConfig.validateOperationWithProfile "encrypt" profile
    { uid := some uidBuffer, counter := some counterBuffer, fileData := fileData }
  let masterKeyBytes := (hexToBytes masterKey).getD []
  let piccData ← buildPiccData uidBuffer counterBuffer profile
  let sessionKeys ← deriveKeys P masterKeyBytes (zeros 7) (zeros 3) method
  let encryptedPicc ← AES.cbcEncrypt P sessionKeys.encKey piccData
  let fileOut ←
    match fileData with
    | none => pure (none : Option Bytes)
    | some fd =>
        if ¬profile.includeFileData then
          throw (.validation ("Profile " ++ profile.name ++
            " does not support file data encryption. Use full profile instead."))
        else do
          let ef ← AES.cbcEncrypt P sessionKeys.encKey (prepareFileData fd)
          pure (some ef)
  let cmacData := encryptedPicc ++ fileOut.getD []
  let cmacFull ← CMAC.calculate P sessionKeys.macKey cmacData
  let cmac := cmacFull.take 8
  return {
      originalData :=
        { uid := bytesToHexUpper uidBuffer
          scanCount := counterToNumber counterBuffer
          masterKey := "[REDACTED]"
          keyDerivationMethod := method
          sdmProfile := if profile.name == "" then "custom" else profile.name
          fileData := fileData }
      encryptedData :=
        { picc := bytesToHexUpper encryptedPicc
          cmac := bytesToHexUpper cmac
          enc := fileOut.map bytesToHexUpper } }

/-- The validated `Encoder.encrypt` (part_005): the catch block rethrows
`ValidationError`/`EncryptionError` unchanged and wraps every other error —
including the `SDMProfileError` raised by profile validation — into an
`EncryptionError` with the `Encryption failed:` prefix. -/
def encrypt (P : CryptoPrims) (masterKey : String) (uid : UidArg)
    (scanCount : CounterArg) (fileData : Option Bytes := none)
    (opts : EncOptions := {}) : Except JsError EncResult :=
  exMapErr
    (fun e => match e with
      | .validation m => .validation m
      | .encryption m => .encryption m
      | e => .encryption ("Encryption failed: " ++ e.message))
    (encryptCore P masterKey uid scanCount fileData opts)

end Encoder

namespace EncoderSimple

/-- `Encoder._prepareFileData` (legacy copy, part_006): a fixed 16-byte
buffer receiving at most 16 bytes of the input (longer data is truncated). -/
def prepareFileData (fd : Bytes) : Bytes :=
  fd.take 16 ++ zeros (16 - min fd.length 16)

/-- The try-block of the legacy `Encoder.encrypt` (part_006): master-key
length check only (no hex check), UID/counter conversion, profile
resolution, and encryption with no file-data profile gate; the raw master
key string is stored in `originalData`. -/
def encryptCore (P : CryptoPrims) (masterKey : String) (uid : UidArg)
    (scanCount : CounterArg) (fileData : Option Bytes) (opts : EncOptions) :
    Except JsError SimpleEncResult := do
  let method := opts.keyDerivationMethod
  let profileRef := opts.sdmProfile.getD
    (.byName (if fileData.isSome then "full" else "uidCounter"))
  if masterKey.length ≠ 32 then
    throw (.generic "Master key must be a 32-character hex string")
  let uidBuffer ← Encoder.validateAndConvertUID uid
  let counterBuffer ← Encoder.validateAndConvertCounter scanCount
  let masterKeyBytes := (hexToBytes masterKey).getD []
  let sdmConfig ←
    match profileRef with
    | .byName s => SDMConfig.getProfile (.jstr s)
    | .byObj p => pure p
  let piccData ← Encoder.buildPiccData uidBuffer counterBuffer sdmConfig
  let sessionKeys ← Decoder.deriveKeys P masterKeyBytes (zeros 7) (zeros 3) method
  let encryptedPicc := P.cbcEnc sessionKeys.encKey piccData
  let fileOut :=
    match fileData with
    | none => (none : Option Bytes)
    | some fd => some (P.cbcEnc sessionKeys.encKey (prepareFileData fd))
  let cmacData := encryptedPicc ++ (fileOut.getD [])
  if sessionKeys.macKey.length ≠ 16 then
    throw (.generic "Key must be a 16-byte Buffer")
  let cmac := (P.cmacFn sessionKeys.macKey cmacData).take 8
  return {
      originalData :=
        { uid := bytesToHexUpper uidBuffer
          scanCount := counterToNumber counterBuffer
          masterKey := masterKey
          keyDerivationMethod := method
          fileData := fileData }
      encryptedData :=
        { picc := bytesToHexUpper encryptedPicc
          cmac := bytesToHexUpper cmac
          enc := fileOut.map bytesToHexUpper } }

/-- The legacy `Encoder.encrypt` (part_006): every failure is wrapped into a
plain `Error` with the `Encryption failed:` prefix. -/
def encrypt (P : CryptoPrims) (masterKey : String) (uid : UidArg)
    (scanCount : CounterArg) (fileData : Option Bytes := none)
    (opts : EncOptions := {}) : Except JsError SimpleEncResult :=
  exMapErr (fun e => .generic ("Encryption failed: " ++ e.message))
    (encryptCore P masterKey uid scanCount fileData opts)

end EncoderSimple

/-! ### A concrete primitive instance

PKCS#7 padding with the identity block permutation: a degenerate but lawful
cipher used to evaluate the pipeline on concrete inputs. -/

/-- PKCS#7 padding to a multiple of 16 bytes (always adds 1..16 bytes). -/
def pkcs7Pad (x : Bytes) : Bytes :=
  let p := 16 - x.length % 16
  x ++ List.replicate p p

/-- PKCS#7 unpadding on the reversed byte list: the first element of the
reversal is the padding count, which must be 1..16, fit in the data, and
cover only bytes equal to itself. -/
def pkcs7UnpadRev : Bytes → Option Bytes
  | [] => none
  | n :: rest =>
      if 1 ≤ n ∧ n ≤ (n :: rest).length ∧ n ≤ 16 ∧ ((n :: rest).take n).all (· == n) then
        some ((n :: rest).drop n).reverse
      else none

/-- PKCS#7 unpadding with full padding verification; `none` models the
`bad decrypt` failure of the library. -/
def pkcs7Unpad (y : Bytes) : Option Bytes := pkcs7UnpadRev y.reverse

theorem pkcs7Unpad_pad (x : Bytes) : pkcs7Unpad (pkcs7Pad x) = some x := by
  have hplt : x.length % 16 < 16 := Nat.mod_lt _ (by decide)
  obtain ⟨q, hq⟩ : ∃ q, 16 - x.length % 16 = q + 1 :=
    ⟨16 - x.length % 16 - 1, by omega⟩
  have hq16 : q + 1 ≤ 16 := by omega
  have hpad : pkcs7Pad x = x ++ List.replicate (q + 1) (q + 1) := by
    simp only [pkcs7Pad]
    rw [hq]
  have hrev : (pkcs7Pad x).reverse = (q + 1) :: (List.replicate q (q + 1) ++ x.reverse) := by
    rw [hpad, List.reverse_append, List.reverse_replicate, List.replicate_succ,
      List.cons_append]
  have hlenrep : (List.replicate q (q + 1) : Bytes).length = q := List.length_replicate ..
  have htake : ((List.replicate q (q + 1) ++ x.reverse).take q : Bytes)
      = List.replicate q (q + 1) := List.take_left' hlenrep
  have hdrop : ((List.replicate q (q + 1) ++ x.reverse).drop q : Bytes) = x.reverse :=
    List.drop_left' hlenrep
  have hcond : 1 ≤ q + 1 ∧
      q + 1 ≤ ((q + 1) :: (List.replicate q (q + 1) ++ x.reverse)).length ∧
      q + 1 ≤ 16 ∧
      (((q + 1) :: (List.replicate q (q + 1) ++ x.reverse)).take (q + 1)).all
        (· == q + 1) := by
    refine ⟨Nat.succ_le_succ (Nat.zero_le q), ?_, hq16, ?_⟩
    · simp only [List.length_cons, List.length_append, hlenrep]
      omega
    · rw [List.take_succ_cons, htake]
      simp [List.all_eq_true]
  rw [pkcs7Unpad, hrev]
  simp only [pkcs7UnpadRev]
  rw [if_pos hcond, List.drop_succ_cons, hdrop, List.reverse_reverse]

theorem pkcs7Pad_length (x : Bytes) :
    (pkcs7Pad x).length = x.length + (16 - x.length % 16) := by
  simp [pkcs7Pad]

theorem pkcs7Pad_bytes (x : Bytes) (hx : ∀ b ∈ x, b < 256) :
    ∀ b ∈ pkcs7Pad x, b < 256 := by
  intro b hb
  rcases List.mem_append.1 hb with h | h
  · exact hx b h
  · have := List.eq_of_mem_replicate h
    omega

/-- Truncate-and-mask MAC used by the concrete instance: 16 bytes drawn from
the data and key reduced mod 256. -/
def idMac (k x : Bytes) : Bytes := ((x ++ k).map (· % 256) ++ zeros 16).take 16

theorem idMac_len (k x : Bytes) : (idMac k x).length = 16 := by
  simp [idMac, zeros]
  omega

theorem idMac_bytes (k x : Bytes) : ∀ b ∈ idMac k x, b < 256 := by
  intro b hb
  have hb' := List.mem_of_mem_take hb
  rcases List.mem_append.1 hb' with h | h
  · rcases List.mem_map.1 h with ⟨a, _, rfl⟩
    exact Nat.mod_lt a (by decide)
  · have hb0 : b = 0 := by simpa [zeros] using h
    omega

/-- The concrete primitive bundle. -/
def idPrims : CryptoPrims where
  cbcEnc := fun _ x => pkcs7Pad x
  cbcDec := fun _ y => pkcs7Unpad y
  cmacFn := idMac
  hkdfFn := fun _ _ _ n => zeros n
  pbkdf2Fn := fun _ _ _ n => zeros n
  hashFn := fun x => (x.map (· % 256) ++ zeros 32).take 32
  cbcEnc_len := fun _ x => pkcs7Pad_length x
  cbcDec_enc := fun _ x => pkcs7Unpad_pad x
  cbcEnc_bytes := fun _ x hx => pkcs7Pad_bytes x hx
  cmacFn_len := idMac_len
  cmacFn_bytes := idMac_bytes
  hkdfFn_len := fun _ _ _ n => by simp [zeros]
  pbkdf2Fn_len := fun _ _ _ n => by simp [zeros]
  hashFn_len := fun x => by simp [zeros]

/-- A trivial URL library for closed evaluations. -/
def idUrlLib : UrlLib where
  parseUrl := fun _ => none
  parseQuery := fun _ => {}

/-- Unwrap an `Except` success with a fallback (used to name concrete
pipeline outputs in closed evaluations). -/
def exOk {α : Type} (d : α) : Except JsError α → α
  | .ok a => a
  | .error _ => d

/-- A fixed well-formed 32-character hex master key for closed evaluations. -/
def mk32 : String := "000102030405060708090A0B0C0D0E0F"

/-- The validated encoder run on a fixed input under the concrete
primitives. -/
def encRes0 : EncResult :=
  exOk
    { originalData :=
        { uid := ""
          scanCount := 0
          masterKey := ""
          keyDerivationMethod := ""
          sdmProfile := "" }
      encryptedData := { picc := "", cmac := "" } }
    (Encoder.encrypt idPrims mk32 (.buf [4,0,0,0,0,0,0]) (.num 0) none {})

/-- A decoder with the concrete primitives and `hkdf` keys. -/
def dec6 : Decoder :=
  { masterKey := List.replicate 16 0
    options :=
      { keyDerivationMethod := "hkdf"
        sdmProfile := .byName "uidCounter"
        validateCMAC := true
        strictValidation := false } }

/-- A decode input whose PICC field is a well-formed block enciphered under
the concrete primitives and whose CMAC field cannot match. -/
def in6 : DecInput :=
  .obj { picc := some (bytesToHexUpper (pkcs7Pad ([0xC7,4,0,0,0,0,0,0,0,0,0] ++ zeros 5)))
         enc := none
         cmac := some "00" }

/-! ### Supporting lemmas -/

theorem ok_bind {α β : Type} (a : α) (f : α → Except JsError β) :
    (Except.ok a : Except JsError α) >>= f = f a := rfl

theorem err_bind {α β : Type} (e : JsError) (f : α → Except JsError β) :
    (Except.error e : Except JsError α) >>= f = Except.error e := rfl

theorem throw_bind {α β : Type} (e : JsError) (f : α → Except JsError β) :
    (throw e : Except JsError α) >>= f = Except.error e := rfl

theorem throw_eq_err {α : Type} (e : JsError) :
    (throw e : Except JsError α) = Except.error e := rfl

theorem fmap_err {α β : Type} (f : α → β) (e : JsError) :
    (f <$> (Except.error e : Except JsError α)) = Except.error e := rfl

theorem fmap_ok {α β : Type} (f : α → β) (a : α) :
    (f <$> (Except.ok a : Except JsError α)) = Except.ok (f a) := rfl

theorem pure_ok {α : Type} (a : α) :
    (pure a : Except JsError α) = Except.ok a := rfl

theorem exmap_ok {α β : Type} (f : α → β) (a : α) :
    Except.map f (Except.ok a : Except JsError α) = Except.ok (f a) := rfl

theorem exmap_err {α β : Type} (f : α → β) (e : JsError) :
    Except.map f (Except.error e : Except JsError α) = Except.error e := rfl

theorem hexDigitVal_hexDigitUpper : ∀ n < 16, hexDigitVal (hexDigitUpper n) = some n := by
  decide

theorem isHexChar_hexDigitUpper : ∀ n < 16, isHexChar (hexDigitUpper n) = true := by
  decide

theorem hexDigitVal_lt {c : Char} {v : Nat} (h : hexDigitVal c = some v) : v < 16 := by
  simp only [hexDigitVal] at h
  split_ifs at h <;> simp_all <;> omega

/-- Parsing concatenated upper-hex byte pairs recovers the bytes. -/
theorem hexPairsToBytes_hex (bs : Bytes) (hb : ∀ b ∈ bs, b < 256) :
    hexPairsToBytes (bs.map byteHexUpper).flatten = some bs := by
  induction bs with
  | nil => rfl
  | cons b rest ih =>
      have hblt : b < 256 := hb b (by simp)
      have hdivlt : b / 16 < 16 := by omega
      have hmodlt : b % 16 < 16 := by omega
      have ihr := ih (fun x hx => hb x (by simp [hx]))
      have hbval : 16 * (b / 16) + b % 16 = b := by omega
      simp [byteHexUpper, hexPairsToBytes, hexDigitVal_hexDigitUpper _ hdivlt,
        hexDigitVal_hexDigitUpper _ hmodlt, ihr, hbval]

theorem toList_bytesToHexUpper (bs : Bytes) :
    (bytesToHexUpper bs).toList = (bs.map byteHexUpper).flatten := rfl

theorem hexToBytes_bytesToHexUpper (bs : Bytes) (hb : ∀ b ∈ bs, b < 256) :
    hexToBytes (bytesToHexUpper bs) = some bs := by
  rw [hexToBytes, toList_bytesToHexUpper]
  exact hexPairsToBytes_hex bs hb

theorem length_bytesToHexUpper (bs : Bytes) :
    (bytesToHexUpper bs).length = 2 * bs.length := by
  show ((bs.map byteHexUpper).flatten).length = 2 * bs.length
  induction bs with
  | nil => rfl
  | cons b rest ih =>
      simp only [List.map_cons, List.flatten_cons, List.length_append, ih, byteHexUpper]
      simp [List.length_cons]
      omega

theorem bytesToHexUpper_ne_empty (bs : Bytes) (h : bs ≠ []) :
    (bytesToHexUpper bs == "") = false := by
  cases bs with
  | nil => exact absurd rfl h
  | cons b rest =>
      have : (bytesToHexUpper (b :: rest)).length = 2 * (b :: rest).length :=
        length_bytesToHexUpper _
      simp only [beq_eq_false_iff_ne, ne_eq]
      intro hempty
      rw [hempty] at this
      simp [List.length_cons] at this

theorem validateHexString_bytesToHexUpper (bs : Bytes) (h : bs ≠ [])
    (hb : ∀ b ∈ bs, b < 256) :
    DataParser.validateHexString (bytesToHexUpper bs) = true := by
  rw [DataParser.validateHexString, bytesToHexUpper_ne_empty bs h]
  simp only [Bool.not_false, Bool.true_and]
  rw [toList_bytesToHexUpper]
  rw [List.all_eq_true]
  intro c hc
  rw [List.mem_flatten] at hc
  obtain ⟨l, hl, hcl⟩ := hc
  rw [List.mem_map] at hl
  obtain ⟨b, hbmem, rfl⟩ := hl
  have hblt : b < 256 := hb b hbmem
  simp only [byteHexUpper, List.mem_cons, List.not_mem_nil, or_false] at hcl
  rcases hcl with rfl | rfl
  · exact isHexChar_hexDigitUpper _ (by omega)
  · exact isHexChar_hexDigitUpper _ (by omega)

theorem hexToBuffer_bytesToHexUpper (bs : Bytes) (fieldName : String) (h : bs ≠ [])
    (hb : ∀ b ∈ bs, b < 256) :
    DataParser.hexToBuffer (some (bytesToHexUpper bs)) fieldName = .ok bs := by
  have hne := bytesToHexUpper_ne_empty bs h
  have hval := validateHexString_bytesToHexUpper bs h hb
  have hlen := length_bytesToHexUpper bs
  rw [DataParser.hexToBuffer]
  rw [if_neg (by simp [hne]), if_neg (by simp [hval]), if_neg (by rw [hlen]; omega),
    hexToBytes_bytesToHexUpper bs hb]

/-- Parsing a validated even-length hex string succeeds with byte values. -/
theorem hexPairsToBytes_of_valid : ∀ cs : List Char, cs.all isHexChar = true →
    cs.length % 2 = 0 →
    ∃ bs, hexPairsToBytes cs = some bs ∧ bs.length = cs.length / 2 ∧ ∀ b ∈ bs, b < 256
  | [], _, _ => ⟨[], rfl, rfl, by simp⟩
  | [c], _, hlen => by simp at hlen
  | c1 :: c2 :: rest, hall, hlen => by
      simp only [List.all_cons, Bool.and_eq_true] at hall
      obtain ⟨h1, h2, hrest⟩ := hall
      obtain ⟨v1, hv1⟩ := Option.isSome_iff_exists.1 h1
      obtain ⟨v2, hv2⟩ := Option.isSome_iff_exists.1 h2
      have hlen' : rest.length % 2 = 0 := by
        simp only [List.length_cons] at hlen
        omega
      obtain ⟨bs, hbs, hbslen, hbsb⟩ := hexPairsToBytes_of_valid rest hrest hlen'
      refine ⟨(16 * v1 + v2) :: bs, ?_, ?_, ?_⟩
      · simp [hexPairsToBytes, hv1, hv2, hbs]
      · simp only [List.length_cons, hbslen]
        omega
      · intro b hbmem
        rcases List.mem_cons.1 hbmem with rfl | hmem
        · have := hexDigitVal_lt hv1
          have := hexDigitVal_lt hv2
          omega
        · exact hbsb b hmem

theorem hexToBytes_of_valid (s : String) (hall : s.toList.all isHexChar = true)
    (hlen : s.length % 2 = 0) :
    ∃ bs, hexToBytes s = some bs ∧ bs.length = s.length / 2 ∧ ∀ b ∈ bs, b < 256 :=
  hexPairsToBytes_of_valid s.toList hall hlen

theorem beBytes3_length (n : Nat) : (beBytes3 n).length = 3 := rfl

theorem beBytes3_bytes (n : Nat) : ∀ b ∈ beBytes3 n, b < 256 := by
  intro b hb
  simp only [beBytes3, List.mem_cons, List.mem_singleton, List.not_mem_nil, or_false] at hb
  rcases hb with rfl | rfl | rfl <;> omega

theorem readUIntBE_beBytes3 (n : Nat) (h : n ≤ 16777215) :
    readUIntBE (beBytes3 n) 3 = n := by
  simp only [readUIntBE, beBytes3, List.take, List.foldl]
  omega

theorem counterToNumber_beBytes3 (n : Nat) (h : n ≤ 16777215) :
    counterToNumber (beBytes3 n) = n := by
  rw [counterToNumber, beBytes3_length]
  exact readUIntBE_beBytes3 n h

theorem bytes_len7 (l : Bytes) (h : l.length = 7) :
    ∃ a b c d e f g, l = [a, b, c, d, e, f, g] :=
  match l, h with
  | [a, b, c, d, e, f, g], _ => ⟨a, b, c, d, e, f, g, rfl⟩

theorem bytes_len3 (l : Bytes) (h : l.length = 3) :
    ∃ a b c, l = [a, b, c] :=
  match l, h with
  | [a, b, c], _ => ⟨a, b, c, rfl⟩

theorem bytes_len16 (l : Bytes) (h : l.length = 16) :
    ∃ a1 a2 a3 a4 a5 a6 a7 a8 a9 a10 a11 a12 a13 a14 a15 a16,
      l = [a1, a2, a3, a4, a5, a6, a7, a8, a9, a10, a11, a12, a13, a14, a15, a16] :=
  match l, h with
  | [a1, a2, a3, a4, a5, a6, a7, a8, a9, a10, a11, a12, a13, a14, a15, a16], _ =>
      ⟨a1, a2, a3, a4, a5, a6, a7, a8, a9, a10, a11, a12, a13, a14, a15, a16, rfl⟩

/-- Every listed derivation method succeeds on a 16-byte master key and
yields 16-byte session keys. -/
theorem dispatch_keys (P : CryptoPrims) (mk uid ctr : Bytes) (m : String)
    (hmk : mk.length = 16) (hm : m ∈ validMethods) :
    ∃ sk, KeyDerivation.dispatch P mk uid ctr m = some (.ok sk) ∧
      sk.encKey.length = 16 ∧ sk.macKey.length = 16 := by
  simp only [validMethods, List.mem_cons, List.mem_singleton, List.not_mem_nil,
    or_false] at hm
  rcases hm with rfl | rfl | rfl | rfl
  · refine ⟨{ encKey := (P.cmacFn mk (KeyDerivation.buildSV1 uid ctr)).take 16,
              macKey := (P.cmacFn mk (KeyDerivation.buildSV2 uid ctr)).take 16,
              method := "ntag424-official" }, ?_, ?_, ?_⟩
    · simp [KeyDerivation.dispatch, KeyDerivation.ntag424Official, hmk]
    · simp [List.length_take, P.cmacFn_len]
    · simp [List.length_take, P.cmacFn_len]
  · refine ⟨{ encKey := (P.hkdfFn mk (uid ++ ctr) (strBytes "NTAG424-SESSION-KEYS") 32).take 16,
              macKey := (P.hkdfFn mk (uid ++ ctr) (strBytes "NTAG424-SESSION-KEYS") 32).drop 16,
              method := "hkdf" }, ?_, ?_, ?_⟩
    · simp [KeyDerivation.dispatch, KeyDerivation.hkdf]
    · simp [List.length_take, P.hkdfFn_len]
    · simp [List.length_drop, P.hkdfFn_len]
  · refine ⟨{ encKey := (P.pbkdf2Fn mk (strBytes "NTAG424" ++ uid ++ ctr) 10000 32).take 16,
              macKey := (P.pbkdf2Fn mk (strBytes "NTAG424" ++ uid ++ ctr) 10000 32).drop 16,
              method := "pbkdf2" }, ?_, ?_, ?_⟩
    · simp [KeyDerivation.dispatch, KeyDerivation.pbkdf2]
    · simp [List.length_take, P.pbkdf2Fn_len]
    · simp [List.length_drop, P.pbkdf2Fn_len]
  · refine ⟨{ encKey := (P.hashFn (mk ++ uid ++ ctr ++ strBytes "ENC")).take 16,
              macKey := (P.hashFn (mk ++ uid ++ ctr ++ strBytes "MAC")).take 16,
              method := "simple-hash" }, ?_, ?_, ?_⟩
    · simp [KeyDerivation.dispatch, KeyDerivation.simpleHash]
    · simp [List.length_take, P.hashFn_len]
    · simp [List.length_take, P.hashFn_len]

/-- Closed form of the validated `Encoder.encrypt` on the default
`uidCounter` profile: all validations pass and the result is assembled from
the zero-vector session keys. -/
theorem encrypt_closed (P : CryptoPrims) (mk : String)
    (hmk32 : mk.length = 32) (hhex : mk.toList.all isHexChar = true)
    (a b c d e f g : Nat) (ctrArg : CounterArg) (x y z : Nat)
    (hctr : Encoder.validateAndConvertCounter ctrArg = .ok [x, y, z])
    (m : String) (sk : SessionKeys)
    (hdisp : KeyDerivation.dispatch P ((hexToBytes mk).getD []) (zeros 7) (zeros 3) m
      = some (.ok sk))
    (henc16 : sk.encKey.length = 16) (hmac16 : sk.macKey.length = 16) :
    Encoder.encrypt P mk (.buf [a,b,c,d,e,f,g]) ctrArg none
      { keyDerivationMethod := m } =
    Except.ok
      { originalData :=
          { uid := bytesToHexUpper [a,b,c,d,e,f,g]
            scanCount := counterToNumber [x,y,z]
            masterKey := "[REDACTED]"
            keyDerivationMethod := m
            sdmProfile := "uidCounter"
            fileData := none }
        encryptedData :=
          { picc := bytesToHexUpper (P.cbcEnc sk.encKey ([0xC7, a,b,c,d,e,f,g,x,y,z] ++ zeros 5))
            cmac := bytesToHexUpper ((P.cmacFn sk.macKey (P.cbcEnc sk.encKey ([0xC7, a,b,c,d,e,f,g,x,y,z] ++ zeros 5))).take 8)
            enc := none } } := by
  have hbuild : Encoder.buildPiccData [a,b,c,d,e,f,g] [x,y,z] SDMConfig.uidCounter =
      .ok ([0xC7, a,b,c,d,e,f,g,x,y,z] ++ zeros 5) := by rfl
  simp only [Encoder.encrypt, Encoder.encryptCore, exMapErr,
    Option.isSome, Encoder.validateAndConvertUID, hctr,
    Encoder.deriveKeys, AES.cbcEncrypt, CMAC.calculate,
    SDMConfig.getProfile, SDMConfig.validateOperationWithProfile,
    hmk32, hhex, hbuild]
  simp only [hdisp, ok_bind, err_bind, Except.map_ok]
  have hlook : SDMConfig.lookupProfile "uidCounter" = some SDMConfig.uidCounter := rfl
  simp only [hlook, ok_bind, hbuild, henc16, hmac16]
  simp [SDMConfig.uidCounter, henc16, hmac16, joinComma]
  rfl

/-- Closed form of the validated `Encoder.encrypt` with file data on the
default `full` profile. -/
theorem encrypt_closed_file (P : CryptoPrims) (mk : String)
    (hmk32 : mk.length = 32) (hhex : mk.toList.all isHexChar = true)
    (a b c d e f g : Nat) (ctrArg : CounterArg) (x y z : Nat)
    (hctr : Encoder.validateAndConvertCounter ctrArg = .ok [x, y, z])
    (fd : Bytes) (m : String) (sk : SessionKeys)
    (hdisp : KeyDerivation.dispatch P ((hexToBytes mk).getD []) (zeros 7) (zeros 3) m
      = some (.ok sk))
    (henc16 : sk.encKey.length = 16) (hmac16 : sk.macKey.length = 16) :
    Encoder.encrypt P mk (.buf [a,b,c,d,e,f,g]) ctrArg (some fd)
      { keyDerivationMethod := m } =
    Except.ok
      { originalData :=
          { uid := bytesToHexUpper [a,b,c,d,e,f,g]
            scanCount := counterToNumber [x,y,z]
            masterKey := "[REDACTED]"
            keyDerivationMethod := m
            sdmProfile := "full"
            fileData := some fd }
        encryptedData :=
          { picc := bytesToHexUpper (P.cbcEnc sk.encKey ([0xC7, a,b,c,d,e,f,g,x,y,z] ++ zeros 5))
            cmac := bytesToHexUpper ((P.cmacFn sk.macKey (P.cbcEnc sk.encKey ([0xC7, a,b,c,d,e,f,g,x,y,z] ++ zeros 5) ++ P.cbcEnc sk.encKey (Encoder.prepareFileData fd))).take 8)
            enc := some (bytesToHexUpper (P.cbcEnc sk.encKey (Encoder.prepareFileData fd))) } } := by
  have hbuild : Encoder.buildPiccData [a,b,c,d,e,f,g] [x,y,z] SDMConfig.full =
      .ok ([0xC7, a,b,c,d,e,f,g,x,y,z] ++ zeros 5) := by rfl
  simp only [Encoder.encrypt, Encoder.encryptCore, exMapErr,
    Option.isSome, Encoder.validateAndConvertUID, hctr,
    Encoder.deriveKeys, AES.cbcEncrypt, CMAC.calculate,
    SDMConfig.getProfile, SDMConfig.validateOperationWithProfile,
    hmk32, hhex, hbuild]
  simp only [hdisp, ok_bind, err_bind, Except.map_ok]
  have hlook : SDMConfig.lookupProfile "full" = some SDMConfig.full := rfl
  simp only [hlook, ok_bind, hbuild, henc16, hmac16]
  simp [SDMConfig.full, henc16, hmac16, joinComma]
  rfl

/-- Closed form of the simple `Decoder.decrypt` on a structured input whose
PICC field is the encryption of a well-formed block under the decoder's own
zero-vector session keys: decoding succeeds and reports the CMAC comparison
outcome. -/
theorem decrypt_closed_uidCounter (P : CryptoPrims) (U : UrlLib) (mkB : Bytes)
    (vc : Bool) (m : String) (sk : SessionKeys)
    (hdisp : KeyDerivation.dispatch P mkB (zeros 7) (zeros 3) m = some (.ok sk))
    (henc16 : sk.encKey.length = 16) (hmac16 : sk.macKey.length = 16)
    (b c d e f g x y z : Nat)
    (hbytes : ∀ w ∈ [b,c,d,e,f,g,x,y,z], w < 256)
    (M : Bytes) (hM : M ≠ []) (hMb : ∀ w ∈ M, w < 256) :
    Decoder.decrypt P U
      { masterKey := mkB,
        options := { keyDerivationMethod := m, sdmProfile := .byName "uidCounter",
                     validateCMAC := vc, strictValidation := false } }
      (.obj { picc := some (bytesToHexUpper (P.cbcEnc sk.encKey ([0xC7,4,b,c,d,e,f,g,x,y,z] ++ zeros 5))),
              enc := none,
              cmac := some (bytesToHexUpper M) }) =
    { success := true
      error := none
      uid := some (bytesToHexUpper [4,b,c,d,e,f,g])
      readCounter := some (Int.ofNat (readUIntBE [x,y,z] 3))
      dataTag := some "C7"
      encryptedFileData := none
      cmacValid := some (if vc then
        CMAC.verify P sk.macKey (P.cbcEnc sk.encKey ([0xC7,4,b,c,d,e,f,g,x,y,z] ++ zeros 5)) M
        else true)
      sessionKeys := some { encKey := bytesToHexUpper sk.encKey,
                            macKey := bytesToHexUpper sk.macKey,
                            derivationMethod := sk.method }
      rawDecryptedPicc := some (bytesToHexUpper ([0xC7,4,b,c,d,e,f,g,x,y,z] ++ zeros 5))
      rawDecryptedEnc := none
      piccInfo := some (DataParser.extractPiccData ([0xC7,4,b,c,d,e,f,g,x,y,z] ++ zeros 5)
        SDMConfig.uidCounter) } := by
  have hplain : ∀ w ∈ ([0xC7,4,b,c,d,e,f,g,x,y,z] ++ zeros 5 : Bytes), w < 256 := by
    intro w hw
    rcases List.mem_append.1 hw with h | h
    · simp only [List.mem_cons, List.not_mem_nil, or_false] at h
      rcases h with rfl | rfl | h
      · omega
      · omega
      · exact hbytes w (by simpa using h)
    · have : w = 0 := by simpa [zeros] using h
      omega
  have hClen : (P.cbcEnc sk.encKey ([0xC7,4,b,c,d,e,f,g,x,y,z] ++ zeros 5)).length = 32 := by
    rw [P.cbcEnc_len]
    simp [zeros]
  have hCne : P.cbcEnc sk.encKey ([0xC7,4,b,c,d,e,f,g,x,y,z] ++ zeros 5) ≠ [] := by
    intro hc
    rw [hc] at hClen
    simp at hClen
  have hCb : ∀ w ∈ P.cbcEnc sk.encKey ([0xC7,4,b,c,d,e,f,g,x,y,z] ++ zeros 5), w < 256 :=
    P.cbcEnc_bytes _ _ hplain
  have hpicc := hexToBuffer_bytesToHexUpper
    (P.cbcEnc sk.encKey ([0xC7,4,b,c,d,e,f,g,x,y,z] ++ zeros 5)) "PICC data" hCne hCb
  have hcmac := hexToBuffer_bytesToHexUpper M "CMAC data" hM hMb
  have hdec := P.cbcDec_enc sk.encKey ([0xC7,4,b,c,d,e,f,g,x,y,z] ++ zeros 5)
  have hlook : SDMConfig.getProfile (.jstr "uidCounter") = .ok SDMConfig.uidCounter := rfl
  have hcnt : readUIntBE [x,y,z] 3 ≤ 16777215 := by
    have hx : x < 256 := hbytes x (by simp)
    have hy : y < 256 := hbytes y (by simp)
    have hz : z < 256 := hbytes z (by simp)
    simp only [readUIntBE, List.take, List.foldl]
    omega
  have hvalid : Decoder.isValidDecryption ([0xC7,4,b,c,d,e,f,g,x,y,z] ++ zeros 5)
      (DataParser.extractPiccData ([0xC7,4,b,c,d,e,f,g,x,y,z] ++ zeros 5)
        SDMConfig.uidCounter) = true := by
    simp only [Decoder.isValidDecryption, DataParser.extractPiccData]
    norm_num [zeros, SDMConfig.uidCounter]
    omega
  simp only [List.cons_append, List.nil_append] at hvalid
  have hext : DataParser.extractPiccData
      (0xC7 :: 4 :: b :: c :: d :: e :: f :: g :: x :: y :: z :: zeros 5) SDMConfig.uidCounter =
      { dataTag := some 0xC7, uid := some [4,b,c,d,e,f,g], readCounter := some [x,y,z],
        readCounterInt := some (Int.ofNat (readUIntBE [x,y,z] 3)),
        padding := some (zeros 5),
        raw := 0xC7 :: 4 :: b :: c :: d :: e :: f :: g :: x :: y :: z :: zeros 5 } := rfl
  simp only [Decoder.decrypt, Decoder.decryptCore, Decoder.parseInput,
    Decoder.performDecryption, Decoder.performDecryptionBody, exMapErr,
    Decoder.deriveKeys, AES.cbcDecrypt, jsTruthyStr,
    hpicc, hcmac, hdisp, hlook, ok_bind, err_bind]
  simp only [henc16, hmac16, hClen, hdec, ok_bind]
  simp [hvalid, ok_bind, pure_ok, Decoder.extractFileData]
  simp [hext, jsHexStrUpper]
  rfl

/-- Closed form of the simple `Decoder.decrypt` on the `full` profile with an
encrypted-file-data field present. -/
theorem decrypt_closed_full (P : CryptoPrims) (U : UrlLib) (mkB : Bytes)
    (vc : Bool) (m : String) (sk : SessionKeys)
    (hdisp : KeyDerivation.dispatch P mkB (zeros 7) (zeros 3) m = some (.ok sk))
    (henc16 : sk.encKey.length = 16) (hmac16 : sk.macKey.length = 16)
    (b c d e f g x y z : Nat)
    (hbytes : ∀ w ∈ [b,c,d,e,f,g,x,y,z], w < 256)
    (D : Bytes) (hD16 : D.length % 16 = 0) (hDb : ∀ w ∈ D, w < 256)
    (M : Bytes) (hM : M ≠ []) (hMb : ∀ w ∈ M, w < 256) :
    Decoder.decrypt P U
      { masterKey := mkB,
        options := { keyDerivationMethod := m, sdmProfile := .byName "full",
                     validateCMAC := vc, strictValidation := false } }
      (.obj { picc := some (bytesToHexUpper (P.cbcEnc sk.encKey ([0xC7,4,b,c,d,e,f,g,x,y,z] ++ zeros 5))),
              enc := some (bytesToHexUpper (P.cbcEnc sk.encKey D)),
              cmac := some (bytesToHexUpper M) }) =
    { success := true
      error := none
      uid := some (bytesToHexUpper [4,b,c,d,e,f,g])
      readCounter := some (Int.ofNat (readUIntBE [x,y,z] 3))
      dataTag := some "C7"
      encryptedFileData := Decoder.extractFileData (some D)
      cmacValid := some (if vc then
        CMAC.verify P sk.macKey
          (P.cbcEnc sk.encKey ([0xC7,4,b,c,d,e,f,g,x,y,z] ++ zeros 5) ++ P.cbcEnc sk.encKey D) M
        else true)
      sessionKeys := some { encKey := bytesToHexUpper sk.encKey,
                            macKey := bytesToHexUpper sk.macKey,
                            derivationMethod := sk.method }
      rawDecryptedPicc := some (bytesToHexUpper ([0xC7,4,b,c,d,e,f,g,x,y,z] ++ zeros 5))
      rawDecryptedEnc := some (bytesToHexUpper D)
      piccInfo := some (DataParser.extractPiccData ([0xC7,4,b,c,d,e,f,g,x,y,z] ++ zeros 5)
        SDMConfig.full) } := by
  have hplain : ∀ w ∈ ([0xC7,4,b,c,d,e,f,g,x,y,z] ++ zeros 5 : Bytes), w < 256 := by
    intro w hw
    rcases List.mem_append.1 hw with h | h
    · simp only [List.mem_cons, List.not_mem_nil, or_false] at h
      rcases h with rfl | rfl | h
      · omega
      · omega
      · exact hbytes w (by simpa using h)
    · have : w = 0 := by simpa [zeros] using h
      omega
  have hClen : (P.cbcEnc sk.encKey ([0xC7,4,b,c,d,e,f,g,x,y,z] ++ zeros 5)).length = 32 := by
    rw [P.cbcEnc_len]
    simp [zeros]
  have hCne : P.cbcEnc sk.encKey ([0xC7,4,b,c,d,e,f,g,x,y,z] ++ zeros 5) ≠ [] := by
    intro hc
    rw [hc] at hClen
    simp at hClen
  have hCb : ∀ w ∈ P.cbcEnc sk.encKey ([0xC7,4,b,c,d,e,f,g,x,y,z] ++ zeros 5), w < 256 :=
    P.cbcEnc_bytes _ _ hplain
  have hElen : (P.cbcEnc sk.encKey D).length = D.length + 16 := by
    rw [P.cbcEnc_len, hD16]
  have hEne : P.cbcEnc sk.encKey D ≠ [] := by
    intro hc
    rw [hc] at hElen
    simp at hElen
  have hEmod : (P.cbcEnc sk.encKey D).length % 16 = 0 := by
    rw [hElen]
    omega
  have hEb : ∀ w ∈ P.cbcEnc sk.encKey D, w < 256 := P.cbcEnc_bytes _ _ hDb
  have hpicc := hexToBuffer_bytesToHexUpper
    (P.cbcEnc sk.encKey ([0xC7,4,b,c,d,e,f,g,x,y,z] ++ zeros 5)) "PICC data" hCne hCb
  have hencp := hexToBuffer_bytesToHexUpper (P.cbcEnc sk.encKey D) "ENC data" hEne hEb
  have hcmac := hexToBuffer_bytesToHexUpper M "CMAC data" hM hMb
  have hdec := P.cbcDec_enc sk.encKey ([0xC7,4,b,c,d,e,f,g,x,y,z] ++ zeros 5)
  have hdecE := P.cbcDec_enc sk.encKey D
  have hlook : SDMConfig.getProfile (.jstr "full") = .ok SDMConfig.full := rfl
  have hvalid : Decoder.isValidDecryption ([0xC7,4,b,c,d,e,f,g,x,y,z] ++ zeros 5)
      (DataParser.extractPiccData ([0xC7,4,b,c,d,e,f,g,x,y,z] ++ zeros 5)
        SDMConfig.full) = true := by
    have hx : x < 256 := hbytes x (by simp)
    have hy : y < 256 := hbytes y (by simp)
    have hz : z < 256 := hbytes z (by simp)
    simp only [Decoder.isValidDecryption, DataParser.extractPiccData]
    norm_num [zeros, SDMConfig.full]
    simp only [readUIntBE, List.take, List.foldl]
    omega
  simp only [List.cons_append, List.nil_append] at hvalid
  have hext : DataParser.extractPiccData
      (0xC7 :: 4 :: b :: c :: d :: e :: f :: g :: x :: y :: z :: zeros 5) SDMConfig.full =
      { dataTag := some 0xC7, uid := some [4,b,c,d,e,f,g], readCounter := some [x,y,z],
        readCounterInt := some (Int.ofNat (readUIntBE [x,y,z] 3)),
        padding := some (zeros 5),
        raw := 0xC7 :: 4 :: b :: c :: d :: e :: f :: g :: x :: y :: z :: zeros 5 } := rfl
  have hbeq : (bytesToHexUpper (P.cbcEnc sk.encKey D) == "") = false :=
    bytesToHexUpper_ne_empty _ hEne
  simp only [Decoder.decrypt, Decoder.decryptCore, Decoder.parseInput,
    Decoder.performDecryption, Decoder.performDecryptionBody, exMapErr,
    Decoder.deriveKeys, AES.cbcDecrypt, jsTruthyStr, hbeq,
    hpicc, hencp, hcmac, hdisp, hlook, ok_bind, err_bind]
  simp only [henc16, hmac16, hClen, hElen, hEmod, hdec, hdecE, ok_bind,
    exmap_ok, hEne]
  simp [hvalid, ok_bind, pure_ok, hEne, hEmod, hdecE, hD16]
  simp [hext, jsHexStrUpper, hdecE, hEmod, hElen, hD16]
  rfl

theorem str_append_ne_left (s t : String) (hs : s ≠ "") : s ++ t ≠ "" := by
  intro h
  have hd : s.data ++ t.data = [] := congrArg String.data h
  rcases List.append_eq_nil.1 hd with ⟨h1, _⟩
  exact hs (by apply String.ext; simpa using h1)

theorem str_append_ne_right (s t : String) (ht : t ≠ "") : s ++ t ≠ "" := by
  intro h
  have hd : s.data ++ t.data = [] := congrArg String.data h
  rcases List.append_eq_nil.1 hd with ⟨_, h2⟩
  exact ht (by apply String.ext; simpa using h2)

/-- Verifying a CMAC against its own 8-byte truncation succeeds. -/
theorem verify_trunc8 (P : CryptoPrims) (k data : Bytes) (hk : k.length = 16) :
    CMAC.verify P k data ((P.cmacFn k data).take 8) = true := by
  have hlen : ((P.cmacFn k data).take 8).length = 8 := by
    simp [List.length_take, P.cmacFn_len]
  simp [CMAC.verify, hk, hlen, timingSafeEqual]

/-- An in-range numeric counter converts to its big-endian bytes. -/
theorem convertCounter_num (n : Int) (h0 : 0 ≤ n) (h : n ≤ 16777215) :
    Encoder.validateAndConvertCounter (.num n) =
      .ok [n.toNat / 65536 % 256, n.toNat / 256 % 256, n.toNat % 256] := by
  rw [Encoder.validateAndConvertCounter, if_neg (by omega)]
  rfl

/-- The decoder constructor succeeds on a valid master key, listed method and
predefined profile name. -/
theorem mk?_ok_byName (mk : String) (hmk32 : mk.length = 32)
    (hhex : mk.toList.all isHexChar = true)
    (m : String) (hm : m ∈ validMethods)
    (pn : String) (hpn : pn ∈ SDMConfig.getAvailableProfiles) (vc sv : Bool) :
    Decoder.mk? mk { keyDerivationMethod := m, sdmProfile := .byName pn,
                     validateCMAC := vc, strictValidation := sv } =
    .ok { masterKey := (hexToBytes mk).getD [],
          options := { keyDerivationMethod := m, sdmProfile := .byName pn,
                       validateCMAC := vc, strictValidation := sv } } := by
  have hhex2 : ¬∃ x ∈ mk.data, isHexChar x = false := by
    simpa using hhex
  simp [Decoder.mk?, exMapErr, hmk32, hhex2, hm, hpn, ok_bind, pure_ok]

theorem dropWhile_replicate_zero (k : Nat) (l : Bytes) :
    (List.replicate k 0 ++ l).dropWhile (· == 0) = l.dropWhile (· == 0) := by
  induction k with
  | zero => simp
  | succ q ih => simpa [List.replicate_succ, List.dropWhile_cons] using ih

/-- Stripping trailing zeros undoes zero padding when the data is non-empty
and does not itself end in a zero byte. -/
theorem stripTrailingZeros_pad (fd : Bytes) (k : Nat) (hne : fd ≠ [])
    (hlast : fd.getLast? ≠ some 0) :
    stripTrailingZeros (fd ++ zeros k) = fd := by
  rw [stripTrailingZeros, List.reverse_append]
  rw [show (zeros k).reverse = List.replicate k 0 from by simp [zeros]]
  rw [dropWhile_replicate_zero]
  cases hrev : fd.reverse with
  | nil =>
      have : fd = [] := by simpa using congrArg List.reverse hrev
      exact absurd this hne
  | cons a r =>
      have hha : fd.getLast? = some a := by
        rw [← List.head?_reverse, hrev]
        rfl
      have ha : (a == 0) = false := by
        simp only [beq_eq_false_iff_ne, ne_eq]
        intro h0
        rw [h0] at hha
        exact hlast hha
      rw [List.dropWhile_cons, ha]
      simp only [Bool.false_eq_true, if_false]
      rw [← hrev, List.reverse_reverse]


theorem cbcEncrypt_ok_iff (P : CryptoPrims) (k d out : Bytes) :
    AES.cbcEncrypt P k d = .ok out ↔ k.length = 16 ∧ out = P.cbcEnc k d := by
  rw [AES.cbcEncrypt]
  split_ifs with hk
  · simp
    omega
  · constructor
    · intro h
      cases h
      exact ⟨by omega, rfl⟩
    · intro ⟨h1, h2⟩
      rw [h2]

theorem calculate_ok_iff (P : CryptoPrims) (k d out : Bytes) :
    CMAC.calculate P k d = .ok out ↔ k.length = 16 ∧ out = P.cmacFn k d := by
  rw [CMAC.calculate]
  split_ifs with hk
  · simp
    omega
  · constructor
    · intro h
      cases h
      exact ⟨by omega, rfl⟩
    · intro ⟨h1, h2⟩
      rw [h2]

theorem pure_eq_ok {α : Type} (a b : α) :
    (pure a : Except JsError α) = .ok b ↔ a = b := by
  constructor
  · intro h
    cases h
    rfl
  · intro h
    rw [h]
    rfl

theorem encrypt_ok_spine (P : CryptoPrims) (mk : String) (uidArg : UidArg)
    (ctrArg : CounterArg) (fd : Option Bytes) (opts : EncOptions) (r : EncResult)
    (h : Encoder.encrypt P mk uidArg ctrArg fd opts = .ok r) :
    ∃ sk piccData,
      Encoder.deriveKeys P ((hexToBytes mk).getD []) (zeros 7) (zeros 3)
        opts.keyDerivationMethod = .ok sk ∧
      sk.macKey.length = 16 ∧
      r.originalData.masterKey = "[REDACTED]" ∧
      r.encryptedData.picc = bytesToHexUpper (P.cbcEnc sk.encKey piccData) ∧
      r.encryptedData.enc =
        fd.map (fun f => bytesToHexUpper (P.cbcEnc sk.encKey (Encoder.prepareFileData f))) ∧
      r.encryptedData.cmac = bytesToHexUpper ((P.cmacFn sk.macKey
        (P.cbcEnc sk.encKey piccData ++
          (fd.map (fun f => P.cbcEnc sk.encKey (Encoder.prepareFileData f))).getD [])).take 8) := by
  cases fd with
  | none =>
    rw [Encoder.encrypt] at h
    cases hc : Encoder.encryptCore P mk uidArg ctrArg none opts with
    | error e => rw [hc] at h; simp [exMapErr] at h
    | ok r0 =>
        rw [hc] at h
        simp only [exMapErr] at h
        cases h
        rw [Encoder.encryptCore] at hc
        simp only [bind, Except.bind] at hc
        repeat' split at hc
        all_goals simp_all [cbcEncrypt_ok_iff, calculate_ok_iff, pure_eq_ok]
        all_goals subst hc
        all_goals simp_all
        all_goals subst_vars
        all_goals first
          | exact ⟨_, rfl, rfl, rfl⟩
          | exact ⟨_, rfl, rfl, rfl, rfl⟩
          | exact ⟨_, rfl, rfl⟩
          | exact ⟨_, rfl, ⟨_, rfl, rfl⟩, rfl⟩
          | rfl
  | some f =>
    rw [Encoder.encrypt] at h
    cases hc : Encoder.encryptCore P mk uidArg ctrArg (some f) opts with
    | error e => rw [hc] at h; simp [exMapErr] at h
    | ok r0 =>
        rw [hc] at h
        simp only [exMapErr] at h
        cases h
        rw [Encoder.encryptCore] at hc
        simp only [bind, Except.bind] at hc
        repeat' split at hc
        all_goals simp_all [cbcEncrypt_ok_iff, calculate_ok_iff, pure_eq_ok]
        all_goals subst hc
        all_goals simp_all
        all_goals subst_vars
        all_goals first
          | exact ⟨_, rfl, rfl, rfl⟩
          | exact ⟨_, rfl, rfl, rfl, rfl⟩
          | exact ⟨_, rfl, rfl⟩
          | exact ⟨_, rfl, ⟨_, rfl, rfl⟩, rfl⟩
          | rfl


end Ntag424


open Ntag424

theorem cbcDecrypt_ok_iff (P : CryptoPrims) (k d out : Bytes) :
    AES.cbcDecrypt P k d = .ok out ↔
      k.length = 16 ∧ d.length ≠ 0 ∧ d.length % 16 = 0 ∧ P.cbcDec k d = some out := by
  rw [AES.cbcDecrypt]
  split_ifs with h1 h2 h3
  · constructor
    · intro h
      cases h
    · intro ⟨ha, hb, hc, hd⟩
      omega
  · constructor
    · intro h
      cases h
    · intro ⟨ha, hb, hc, hd⟩
      simp_all
  · constructor
    · intro h
      cases h
    · intro ⟨ha, hb, hc, hd⟩
      simp_all
  · cases hca : P.cbcDec k d with
    | none =>
        constructor
        · intro h
          cases h
        · intro ⟨ha, hb, hc, hd⟩
          cases hd
    | some x =>
        simp [hca]
        constructor
        · intro hx
          exact ⟨by omega, by simp_all, by omega, hx⟩
        · intro ⟨ha, hb, hc, hd⟩
          exact hd

theorem extract_raw (dp : Bytes) (cfg : SDMProfile) :
    (DataParser.extractPiccData dp cfg).raw = dp := by
  simp [DataParser.extractPiccData]

/-- Inversion of a successful `_performDecryption` run (simple decoder):
the session keys come from the zero-vector derivation, the decrypted block
passed structural validation, and the reported `cmacValid` flag is exactly
the truncated-CMAC comparison over the input ciphertexts. -/
theorem performDecryption_ok_spine (P : CryptoPrims) (mkB pb : Bytes)
    (ebOpt : Option Bytes) (cb : Bytes) (cfg : SDMProfile) (opts : DecoderOptions)
    (res : DecodeSuccess)
    (hb : Decoder.performDecryption P mkB pb ebOpt cb cfg opts = .ok res) :
    ∃ sk dp,
      Decoder.deriveKeys P mkB (zeros 7) (zeros 3) opts.keyDerivationMethod = .ok sk ∧
      AES.cbcDecrypt P sk.encKey pb = .ok dp ∧
      res.piccInfo = DataParser.extractPiccData dp cfg ∧
      Decoder.isValidDecryption res.piccInfo.raw res.piccInfo = true ∧
      res.uid = res.piccInfo.uid.map bytesToHexUpper ∧
      res.readCounter = res.piccInfo.readCounterInt ∧
      res.sessionKeys = { encKey := bytesToHexUpper sk.encKey,
                          macKey := bytesToHexUpper sk.macKey,
                          derivationMethod := sk.method } ∧
      res.cmacValid = (if opts.validateCMAC then
        CMAC.verify P sk.macKey (pb ++ ebOpt.getD []) cb else true) := by
  rw [Decoder.performDecryption] at hb
  cases hbody : Decoder.performDecryptionBody P mkB pb ebOpt cb cfg opts with
  | error e => rw [hbody] at hb; simp [exMapErr] at hb
  | ok res2 =>
  rw [hbody] at hb
  simp only [exMapErr, Except.ok.injEq] at hb
  subst hb
  rw [Decoder.performDecryptionBody] at hbody
  cases hd : Decoder.deriveKeys P mkB (zeros 7) (zeros 3) opts.keyDerivationMethod with
  | error e => rw [hd, err_bind] at hbody; cases hbody
  | ok sk =>
  rw [hd, ok_bind] at hbody
  cases hdp : AES.cbcDecrypt P sk.encKey pb with
  | error e => rw [hdp, err_bind] at hbody; cases hbody
  | ok dp =>
  rw [hdp, ok_bind] at hbody
  cases hval : Decoder.isValidDecryption dp (DataParser.extractPiccData dp cfg) with
  | false =>
      simp only [hval] at hbody
      simp [throw_bind] at hbody
  | true =>
  simp only [hval, Bool.not_true, Bool.false_eq_true, if_false, ite_false,
    eq_self_iff_true, not_true] at hbody
  refine ⟨sk, dp, rfl, hdp, ?_⟩
  cases ebOpt with
  | none =>
      simp only [err_bind, ok_bind, pure_ok, Except.ok.injEq] at hbody
      subst hbody
      refine ⟨rfl, ?_, rfl, rfl, rfl, rfl⟩
      rw [extract_raw]
      exact hval
  | some eb =>
      simp only [] at hbody
      cases hde : AES.cbcDecrypt P sk.encKey eb with
      | error e =>
          rw [hde] at hbody
          simp [throw_eq_err, fmap_err] at hbody
      | ok de =>
          rw [hde] at hbody
          simp only [err_bind, ok_bind, pure_ok, Except.ok.injEq] at hbody
          subst hbody
          refine ⟨rfl, ?_, rfl, rfl, rfl, rfl⟩
          rw [extract_raw]
          exact hval


/-- Inversion of a successful `decryptCore` run (simple decoder): the input
parsed, all hex fields converted, the profile resolved, and
`_performDecryption` succeeded on the converted buffers. -/
theorem decryptCore_ok_spine (P : CryptoPrims) (U : UrlLib) (mkB : Bytes)
    (opts : DecoderOptions) (input : DecInput) (res : DecodeSuccess)
    (hc : Decoder.decryptCore P U mkB opts input = .ok res) :
    ∃ data pb ebOpt cb cfg,
      Decoder.parseInput U input = .ok data ∧
      DataParser.hexToBuffer data.picc "PICC data" = .ok pb ∧
      (if jsTruthyStr data.enc then
        ∃ e, DataParser.hexToBuffer data.enc "ENC data" = .ok e ∧ ebOpt = some e
       else ebOpt = (none : Option Bytes)) ∧
      DataParser.hexToBuffer data.cmac "CMAC data" = .ok cb ∧
      (match opts.sdmProfile with
       | .byName s => SDMConfig.getProfile (.jstr s) = .ok cfg
       | .byObj p => cfg = p) ∧
      Decoder.performDecryption P mkB pb ebOpt cb cfg opts = .ok res := by
  rw [Decoder.decryptCore] at hc
  cases hp : Decoder.parseInput U input with
  | error e => rw [hp, err_bind] at hc; cases hc
  | ok data =>
  rw [hp, ok_bind] at hc
  refine ⟨data, ?_⟩
  have hc2 : (do
      let piccData ← DataParser.hexToBuffer data.picc "PICC data"
      let encData ←
        if jsTruthyStr data.enc then
          (DataParser.hexToBuffer data.enc "ENC data").map some
        else pure (none : Option Bytes)
      let cmacData ← DataParser.hexToBuffer data.cmac "CMAC data"
      let sdmConfig ←
        match opts.sdmProfile with
        | .byName s => SDMConfig.getProfile (.jstr s)
        | .byObj p => pure p
      Decoder.performDecryption P mkB piccData encData cmacData sdmConfig opts)
      = Except.ok res := by
    cases hsv : opts.strictValidation with
    | false =>
        simp only [hsv, Bool.false_eq_true, if_false, ite_false, pure_ok, ok_bind] at hc
        exact hc
    | true =>
        rw [hsv] at hc
        cases hv : Decoder.validateInput data with
        | error e =>
            simp only [if_true, hv, err_bind] at hc
            cases hc
        | ok u =>
            cases u
            simp only [if_true, hv, ok_bind] at hc
            exact hc
  clear hc
  cases hpb : DataParser.hexToBuffer data.picc "PICC data" with
  | error e => rw [hpb, err_bind] at hc2; cases hc2
  | ok pb =>
  rw [hpb, ok_bind] at hc2
  refine ⟨pb, ?_⟩
  cases ht : jsTruthyStr data.enc with
  | false =>
      simp only [ht, Bool.false_eq_true, if_false, ite_false, pure_ok, ok_bind] at hc2
      cases hcb : DataParser.hexToBuffer data.cmac "CMAC data" with
      | error e => rw [hcb, err_bind] at hc2; cases hc2
      | ok cb =>
      rw [hcb, ok_bind] at hc2
      cases hprof : opts.sdmProfile with
      | byName s =>
          rw [hprof] at hc2
          cases hg : SDMConfig.getProfile (.jstr s) with
          | error e => simp only [hg, err_bind] at hc2; cases hc2
          | ok cfg =>
              simp only [hg, ok_bind] at hc2
              exact ⟨none, cb, cfg, rfl, rfl, by simp, rfl, hg, hc2⟩
      | byObj p =>
          rw [hprof] at hc2
          simp only [pure_ok, ok_bind] at hc2
          exact ⟨none, cb, p, rfl, rfl, by simp, rfl, rfl, hc2⟩
  | true =>
      simp only [ht, if_true] at hc2
      cases hxe : DataParser.hexToBuffer data.enc "ENC data" with
      | error e =>
          rw [hxe] at hc2
          simp only [Except.map, err_bind] at hc2
          cases hc2
      | ok eb =>
      rw [hxe] at hc2
      simp only [Except.map, ok_bind] at hc2
      cases hcb : DataParser.hexToBuffer data.cmac "CMAC data" with
      | error e => rw [hcb, err_bind] at hc2; cases hc2
      | ok cb =>
      rw [hcb, ok_bind] at hc2
      cases hprof : opts.sdmProfile with
      | byName s =>
          rw [hprof] at hc2
          cases hg : SDMConfig.getProfile (.jstr s) with
          | error e => simp only [hg, err_bind] at hc2; cases hc2
          | ok cfg =>
              simp only [hg, ok_bind] at hc2
              exact ⟨some eb, cb, cfg, rfl, rfl, by simp, rfl, hg, hc2⟩
      | byObj p =>
          rw [hprof] at hc2
          simp only [pure_ok, ok_bind] at hc2
          exact ⟨some eb, cb, p, rfl, rfl, by simp, rfl, rfl, hc2⟩


/-- `Decoder.decrypt` (simple copy) is a total dichotomy: either the core
pipeline succeeded and its payload is spread into a `success: true` record,
or it failed and only `success: false` plus the message are returned. -/
theorem decrypt_cases (P : CryptoPrims) (U : UrlLib) (dec : Decoder)
    (input : DecInput) :
    (∃ r, Decoder.decryptCore P U dec.masterKey dec.options input = .ok r ∧
      Decoder.decrypt P U dec input =
        { success := true
          uid := r.uid
          readCounter := r.readCounter
          dataTag := r.dataTag
          encryptedFileData := r.encryptedFileData
          cmacValid := some r.cmacValid
          sessionKeys := some r.sessionKeys
          rawDecryptedPicc := some r.rawDecryptedPicc
          rawDecryptedEnc := r.rawDecryptedEnc
          piccInfo := some r.piccInfo }) ∨
    (∃ e, Decoder.decryptCore P U dec.masterKey dec.options input = .error e ∧
      Decoder.decrypt P U dec input = { success := false, error := some e.message }) := by
  cases hc : Decoder.decryptCore P U dec.masterKey dec.options input with
  | ok r => exact Or.inl ⟨r, rfl, by rw [Decoder.decrypt, hc]⟩
  | error e => exact Or.inr ⟨e, rfl, by rw [Decoder.decrypt, hc]⟩

/-- `Decoder.decrypt` (secure copy) is the same total dichotomy. -/
theorem decrypt2_cases (P : CryptoPrims) (U : UrlLib) (dec : Decoder)
    (input : DecInput) :
    (∃ r, Decoder2.decryptCore P U dec.masterKey dec.options input = .ok r ∧
      Decoder2.decrypt P U dec input =
        { success := true
          uid := r.uid
          readCounter := r.readCounter
          dataTag := r.dataTag
          encryptedFileData := r.encryptedFileData
          cmacValid := some r.cmacValid
          sessionKeys := some r.sessionKeys
          rawDecryptedPicc := some r.rawDecryptedPicc
          rawDecryptedEnc := r.rawDecryptedEnc
          piccInfo := some r.piccInfo }) ∨
    (∃ e, Decoder2.decryptCore P U dec.masterKey dec.options input = .error e ∧
      Decoder2.decrypt P U dec input = { success := false, error := some e.message }) := by
  cases hc : Decoder2.decryptCore P U dec.masterKey dec.options input with
  | ok r => exact Or.inl ⟨r, rfl, by rw [Decoder2.decrypt, hc]⟩
  | error e => exact Or.inr ⟨e, rfl, by rw [Decoder2.decrypt, hc]⟩

/-- Characterisation of `_isValidDecryption`: tag `0xC7`, length at least 11,
UID (when extracted) led by `0x04`, counter (when extracted) within
`[0, 16777215]`. -/
theorem isValid_iff (dp : Bytes) (info : PiccInfo) :
    Decoder.isValidDecryption dp info = true ↔
      (info.dataTag = some 0xC7 ∧ 11 ≤ dp.length ∧
       (∀ u, info.uid = some u → u.head? = some 0x04) ∧
       (∀ n : Int, info.readCounterInt = some n → 0 ≤ n ∧ n ≤ 16777215)) := by
  rw [Decoder.isValidDecryption]
  cases hu : info.uid with
  | none =>
      cases hn : info.readCounterInt with
      | none => split_ifs with h1 h2 <;> simp_all <;> omega
      | some n => split_ifs with h1 h2 h3 <;> simp_all <;> omega
  | some u =>
      cases hn : info.readCounterInt with
      | none => split_ifs with h1 h2 h3 <;> simp_all <;> omega
      | some n => split_ifs with h1 h2 h3 h4 <;> simp_all <;> omega


set_option maxHeartbeats 1000000 in
/-- Inversion of a successful legacy `Encoder.encrypt` (part_006) run: the
session keys come from the zero-vector derivation, the raw master key string
is stored in `originalData`, and the CMAC is the 8-byte truncation over the
concatenated ciphertexts. -/
theorem encoderSimple_ok_spine (P : CryptoPrims) (mk : String) (uidArg : UidArg)
    (ctrArg : CounterArg) (fd : Option Bytes) (opts : EncOptions) (r : SimpleEncResult)
    (h : EncoderSimple.encrypt P mk uidArg ctrArg fd opts = .ok r) :
    ∃ sk piccData,
      Decoder.deriveKeys P ((hexToBytes mk).getD []) (zeros 7) (zeros 3)
        opts.keyDerivationMethod = .ok sk ∧
      sk.macKey.length = 16 ∧
      r.originalData.masterKey = mk ∧
      r.encryptedData.picc = bytesToHexUpper (P.cbcEnc sk.encKey piccData) ∧
      r.encryptedData.enc =
        fd.map (fun f => bytesToHexUpper (P.cbcEnc sk.encKey (EncoderSimple.prepareFileData f))) ∧
      r.encryptedData.cmac = bytesToHexUpper ((P.cmacFn sk.macKey
        (P.cbcEnc sk.encKey piccData ++
          (fd.map (fun f => P.cbcEnc sk.encKey (EncoderSimple.prepareFileData f))).getD [])).take 8) := by
  cases fd with
  | none =>
    rw [EncoderSimple.encrypt] at h
    cases hc : EncoderSimple.encryptCore P mk uidArg ctrArg none opts with
    | error e => rw [hc] at h; simp [exMapErr] at h
    | ok r0 =>
        rw [hc] at h
        simp only [exMapErr] at h
        cases h
        rw [EncoderSimple.encryptCore] at hc
        simp only [bind, Except.bind] at hc
        repeat' split at hc
        all_goals simp_all [pure_eq_ok]
        all_goals subst hc
        all_goals simp_all
        all_goals subst_vars
        all_goals first
          | exact ⟨_, rfl, rfl, rfl⟩
          | exact ⟨_, rfl, rfl, rfl, rfl⟩
          | exact ⟨_, rfl, rfl⟩
          | exact ⟨_, rfl, ⟨_, rfl, rfl⟩, rfl⟩
          | rfl
          | omega
  | some f =>
    rw [EncoderSimple.encrypt] at h
    cases hc : EncoderSimple.encryptCore P mk uidArg ctrArg (some f) opts with
    | error e => rw [hc] at h; simp [exMapErr] at h
    | ok r0 =>
        rw [hc] at h
        simp only [exMapErr] at h
        cases h
        rw [EncoderSimple.encryptCore] at hc
        simp only [bind, Except.bind] at hc
        repeat' split at hc
        all_goals simp_all [pure_eq_ok]
        all_goals subst hc
        all_goals simp_all
        all_goals subst_vars
        all_goals first
          | exact ⟨_, rfl, rfl, rfl⟩
          | exact ⟨_, rfl, rfl, rfl, rfl⟩
          | exact ⟨_, rfl, rfl⟩
          | exact ⟨_, rfl, ⟨_, rfl, rfl⟩, rfl⟩
          | rfl
          | omega


/-- Closed form of the legacy `Encoder.encrypt` (part_006) with file data on
the (file-rejecting) `uidCounter` profile: no gate fires, the file data is
encrypted anyway, and the raw master key string lands in `originalData`. -/
theorem encoderSimple_closed (P : CryptoPrims) (mk : String) (hmk32 : mk.length = 32)
    (a b c d e f g : Nat) (ctrArg : CounterArg) (x y z : Nat)
    (hctr : Encoder.validateAndConvertCounter ctrArg = .ok [x, y, z])
    (fd : Bytes) (m : String) (sk : SessionKeys)
    (hdisp : KeyDerivation.dispatch P ((hexToBytes mk).getD []) (zeros 7) (zeros 3) m
      = some (.ok sk))
    (hmac16 : sk.macKey.length = 16) :
    EncoderSimple.encrypt P mk (.buf [a,b,c,d,e,f,g]) ctrArg (some fd)
      { keyDerivationMethod := m, sdmProfile := some (.byName "uidCounter") } =
    Except.ok
      { originalData :=
          { uid := bytesToHexUpper [a,b,c,d,e,f,g]
            scanCount := counterToNumber [x,y,z]
            masterKey := mk
            keyDerivationMethod := m
            fileData := some fd }
        encryptedData :=
          { picc := bytesToHexUpper (P.cbcEnc sk.encKey ([0xC7, a,b,c,d,e,f,g,x,y,z] ++ zeros 5))
            cmac := bytesToHexUpper ((P.cmacFn sk.macKey (P.cbcEnc sk.encKey ([0xC7, a,b,c,d,e,f,g,x,y,z] ++ zeros 5) ++ P.cbcEnc sk.encKey (EncoderSimple.prepareFileData fd))).take 8)
            enc := some (bytesToHexUpper (P.cbcEnc sk.encKey (EncoderSimple.prepareFileData fd))) } } := by
  have hbuild : Encoder.buildPiccData [a,b,c,d,e,f,g] [x,y,z] SDMConfig.uidCounter =
      .ok ([0xC7, a,b,c,d,e,f,g,x,y,z] ++ zeros 5) := by rfl
  have hlook : SDMConfig.lookupProfile "uidCounter" = some SDMConfig.uidCounter := rfl
  simp only [EncoderSimple.encrypt, EncoderSimple.encryptCore, exMapErr,
    Option.isSome, Encoder.validateAndConvertUID, hctr,
    Decoder.deriveKeys, SDMConfig.getProfile, hmk32, hbuild]
  simp only [hdisp, ok_bind, err_bind]
  simp only [hlook, ok_bind, hbuild, hmac16]
  simp [SDMConfig.uidCounter, hmac16]
  rfl


/-- The validated encoder's file-data gate: any profile with
`includeFileData = false` rejects file data, and the `SDMProfileError` raised
by the profile check surfaces re-wrapped as an `EncryptionError`. -/
theorem encrypt_fd_gate (P : CryptoPrims) (mk : String) (hmk32 : mk.length = 32)
    (hhex : mk.toList.all isHexChar = true)
    (ub : Bytes) (hub : ub.length = 7) (cb : Bytes) (hcb : cb.length = 3)
    (fd : Bytes) (p : SDMProfile) (hp : p.includeFileData = false) (m : String) :
    Encoder.encrypt P mk (.buf ub) (.buf cb) (some fd)
      { keyDerivationMethod := m, sdmProfile := some (.byObj p) } =
    .error (.encryption ("Encryption failed: " ++ ("SDM profile validation failed: " ++
      ("Profile " ++ p.name ++
       " does not support file data encryption. Use full profile instead.")))) := by
  simp only [Encoder.encrypt, Encoder.encryptCore, exMapErr,
    Encoder.validateAndConvertUID, Encoder.validateAndConvertCounter,
    SDMConfig.validateOperationWithProfile, hmk32, hhex, hub, hcb, hp]
  simp [hp, joinComma, JsError.message, ok_bind, err_bind]

/-- An out-of-range numeric counter aborts the validated encoder with the
counter `ValidationError` before any profile, key-derivation or cipher work;
the result does not depend on the primitives. -/
theorem encrypt_bad_counter (P : CryptoPrims) (mk : String) (hmk32 : mk.length = 32)
    (hhex : mk.toList.all isHexChar = true) (ub : Bytes) (hub : ub.length = 7)
    (n : Int) (hn : n < 0 ∨ 16777215 < n) (fd : Option Bytes) (opts : EncOptions) :
    Encoder.encrypt P mk (.buf ub) (.num n) fd opts =
    .error (.validation "Counter must be an integer between 0 and 16777215 (2^24 - 1)") := by
  have hc : Encoder.validateAndConvertCounter (.num n) =
      .error (.validation "Counter must be an integer between 0 and 16777215 (2^24 - 1)") := by
    rw [Encoder.validateAndConvertCounter, if_pos hn]
  simp only [Encoder.encrypt, Encoder.encryptCore, exMapErr,
    Encoder.validateAndConvertUID, hmk32, hhex, hub, hc]
  simp [ok_bind, err_bind]


theorem joinComma_cons_ne (s : String) (l : List String) (hs : s ≠ "") :
    joinComma (s :: l) ≠ "" := by
  cases l with
  | nil => simpa [joinComma] using hs
  | cons a t => exact str_append_ne_left _ _ (str_append_ne_left _ _ hs)

theorem validateParsedData_msgs (d : ParsedData) :
    ∀ st ∈ (DataParser.validateParsedData d).2, st ≠ "" := by
  intro st hst
  have hmem : st ∈ ["Missing PICC data", "Missing CMAC data", "Invalid PICC hex format",
      "Invalid CMAC hex format", "Invalid ENC hex format"] := by
    simp only [DataParser.validateParsedData] at hst
    split_ifs at hst <;> simp_all <;> tauto
  fin_cases hmem <;> decide

theorem validateParsedData_ne_nil (d : ParsedData)
    (h : (DataParser.validateParsedData d).1 = false) :
    (DataParser.validateParsedData d).2 ≠ [] := by
  intro hnil
  rw [show (DataParser.validateParsedData d).1
      = (DataParser.validateParsedData d).2.isEmpty from rfl, hnil] at h
  simp at h

theorem validateInput_err_msg (d : ParsedData) (e : JsError)
    (h : Decoder.validateInput d = .error e) : e.message ≠ "" := by
  rw [Decoder.validateInput] at h
  split_ifs at h with h1
  cases h
  cases hl : (DataParser.validateParsedData d).2 with
  | nil => exact absurd hl (validateParsedData_ne_nil d (by simpa using h1))
  | cons a t =>
      have hmem : a ∈ (DataParser.validateParsedData d).2 := by
        rw [hl]
        exact List.mem_cons_self a t
      have hne := joinComma_cons_ne a t (validateParsedData_msgs d a hmem)
      simpa [JsError.message, hl] using hne

theorem hexToBuffer_err_msg (s : Option String) (fn : String) (e : JsError)
    (h : DataParser.hexToBuffer s fn = .error e) : e.message ≠ "" := by
  cases s with
  | none =>
      simp only [DataParser.hexToBuffer.eq_def] at h
      cases h
      exact str_append_ne_right _ _ (by decide)
  | some str =>
      simp only [DataParser.hexToBuffer.eq_def] at h
      by_cases h1 : str == ""
      · rw [if_pos h1] at h
        cases h
        exact str_append_ne_right _ _ (by decide)
      · rw [if_neg h1] at h
        by_cases h2 : DataParser.validateHexString str = true
        · rw [if_neg (by simp [h2])] at h
          by_cases h3 : str.length % 2 = 0
          · rw [if_neg (by omega)] at h
            cases hx : hexToBytes str with
            | some bs => rw [hx] at h; cases h
            | none =>
                rw [hx] at h
                cases h
                exact str_append_ne_right _ _ (by decide)
          · rw [if_pos h3] at h
            cases h
            exact str_append_ne_right _ _ (by decide)
        · rw [if_pos h2] at h
          cases h
          exact str_append_ne_right _ _ (by decide)

theorem parseInput_err_msg (U : UrlLib) (i : DecInput) (e : JsError)
    (h : Decoder.parseInput U i = .error e) : e.message ≠ "" := by
  cases i with
  | obj d => cases h
  | other =>
      cases h
      exact str_append_ne_left _ _ (by decide)
  | str st =>
      rw [Decoder.parseInput] at h
      cases hin : (if hasProtocolSep st.toList then DataParser.parseURL U st
          else DataParser.parseQueryString U st) with
      | ok d => rw [hin] at h; cases h
      | error e0 =>
          rw [hin] at h
          cases h
          exact str_append_ne_left _ _ (by decide)

theorem parseInput2_err_msg (U : UrlLib) (i : DecInput) (e : JsError)
    (h : Decoder2.parseInput U i = .error e) : e.message ≠ "" := by
  cases i with
  | obj d => cases h
  | other =>
      cases h
      exact str_append_ne_left _ _ (by decide)
  | str st =>
      rw [Decoder2.parseInput] at h
      cases hin : (if hasProtocolSep st.toList then DataParser.parseURL U st
          else DataParser.parseQueryString U st) with
      | ok d => rw [hin] at h; cases h
      | error e0 =>
          rw [hin] at h
          cases h
          exact str_append_ne_left _ _ (by decide)

theorem getProfile_err_msg (a : SDMConfig.JsArg) (e : JsError)
    (h : SDMConfig.getProfile a = .error e) : e.message ≠ "" := by
  cases a with
  | jnull => cases h
  | jundefined => cases h
  | jnonstring => cases h
  | jstr st =>
      simp only [SDMConfig.getProfile] at h
      by_cases h1 : st == ""
      · rw [if_pos h1] at h
        cases h
      · rw [if_neg h1] at h
        cases hl : SDMConfig.lookupProfile st with
        | some p => rw [hl] at h; cases h
        | none =>
            rw [hl] at h
            cases h
            exact str_append_ne_left _ _ (by decide)

theorem performDecryption_err_msg (P : CryptoPrims) (mkB pb : Bytes)
    (ebOpt : Option Bytes) (cb : Bytes) (cfg : SDMProfile) (opts : DecoderOptions)
    (e : JsError)
    (h : Decoder.performDecryption P mkB pb ebOpt cb cfg opts = .error e) :
    e.message ≠ "" := by
  rw [Decoder.performDecryption] at h
  cases hb : Decoder.performDecryptionBody P mkB pb ebOpt cb cfg opts with
  | ok r => rw [hb] at h; cases h
  | error e0 =>
      rw [hb] at h
      cases h
      exact str_append_ne_left _ _ (by decide)

theorem cbcDecrypt_err_msg (P : CryptoPrims) (k d : Bytes) (e : JsError)
    (h : AES.cbcDecrypt P k d = .error e) : e.message ≠ "" := by
  rw [AES.cbcDecrypt] at h
  split_ifs at h with h1 h2 h3
  · cases h; decide
  · cases h; decide
  · cases h; decide
  · cases hx : P.cbcDec k d with
    | some x => rw [hx] at h; cases h
    | none => rw [hx] at h; cases h; decide

theorem calculate_err_msg (P : CryptoPrims) (k d : Bytes) (e : JsError)
    (h : CMAC.calculate P k d = .error e) : e.message ≠ "" := by
  rw [CMAC.calculate] at h
  split_ifs at h with h1
  cases h
  decide

theorem dispatch_err_msg (P : CryptoPrims) (mkB u c : Bytes) (m : String)
    (r : Except JsError SessionKeys) (e : JsError)
    (hd : KeyDerivation.dispatch P mkB u c m = some r) (he : r = .error e) :
    e.message ≠ "" := by
  rw [KeyDerivation.dispatch] at hd
  split_ifs at hd with h1 h2 h3 h4
  · cases hd
    simp only [KeyDerivation.ntag424Official] at he
    split_ifs at he with hk
    cases he
    decide
  · cases hd
    simp [KeyDerivation.hkdf] at he
  · cases hd
    simp [KeyDerivation.pbkdf2] at he
  · cases hd
    simp [KeyDerivation.simpleHash] at he

theorem deriveKeys2_err_msg (P : CryptoPrims) (mkB u c : Bytes) (m : String)
    (e : JsError) (h : Decoder2.deriveKeys P mkB u c m = .error e) :
    e.message ≠ "" := by
  rw [Decoder2.deriveKeys] at h
  cases hd : KeyDerivation.dispatch P mkB u c m with
  | none =>
      rw [hd] at h
      cases h
      exact str_append_ne_left _ _ (by decide)
  | some r =>
      rw [hd] at h
      exact dispatch_err_msg P mkB u c m r e hd h

theorem deriveKeys_err_msg (P : CryptoPrims) (mkB u c : Bytes) (m : String)
    (e : JsError) (h : Decoder.deriveKeys P mkB u c m = .error e) :
    e.message ≠ "" := by
  rw [Decoder.deriveKeys] at h
  cases hd : KeyDerivation.dispatch P mkB u c m with
  | none =>
      rw [hd] at h
      cases h
      exact str_append_ne_left _ _ (by decide)
  | some r =>
      rw [hd] at h
      exact dispatch_err_msg P mkB u c m r e hd h


theorem decryptTail_err_msg (P : CryptoPrims) (mkB : Bytes) (opts : DecoderOptions)
    (data : ParsedData) (e : JsError)
    (hc : (do
      let piccData ← DataParser.hexToBuffer data.picc "PICC data"
      let encData ←
        if jsTruthyStr data.enc then
          (DataParser.hexToBuffer data.enc "ENC data").map some
        else pure (none : Option Bytes)
      let cmacData ← DataParser.hexToBuffer data.cmac "CMAC data"
      let sdmConfig ←
        match opts.sdmProfile with
        | .byName s => SDMConfig.getProfile (.jstr s)
        | .byObj p => pure p
      Decoder.performDecryption P mkB piccData encData cmacData sdmConfig opts)
      = Except.error e) : e.message ≠ "" := by
  cases hpb : DataParser.hexToBuffer data.picc "PICC data" with
  | error e0 =>
      rw [hpb, err_bind] at hc
      cases hc
      exact hexToBuffer_err_msg _ _ _ hpb
  | ok pb =>
  rw [hpb, ok_bind] at hc
  cases ht : jsTruthyStr data.enc with
  | false =>
      simp only [ht, Bool.false_eq_true, if_false, ite_false, pure_ok, ok_bind] at hc
      cases hcb : DataParser.hexToBuffer data.cmac "CMAC data" with
      | error e0 =>
          rw [hcb, err_bind] at hc
          cases hc
          exact hexToBuffer_err_msg _ _ _ hcb
      | ok cb =>
      rw [hcb, ok_bind] at hc
      cases hprof : opts.sdmProfile with
      | byName s =>
          rw [hprof] at hc
          cases hg : SDMConfig.getProfile (.jstr s) with
          | error e0 =>
              simp only [hg, err_bind] at hc
              cases hc
              exact getProfile_err_msg _ _ hg
          | ok cfg =>
              simp only [hg, ok_bind] at hc
              exact performDecryption_err_msg _ _ _ _ _ _ _ _ hc
      | byObj p =>
          rw [hprof] at hc
          simp only [pure_ok, ok_bind] at hc
          exact performDecryption_err_msg _ _ _ _ _ _ _ _ hc
  | true =>
      simp only [ht, if_true] at hc
      cases hxe : DataParser.hexToBuffer data.enc "ENC data" with
      | error e0 =>
          rw [hxe] at hc
          simp only [Except.map, err_bind] at hc
          cases hc
          exact hexToBuffer_err_msg _ _ _ hxe
      | ok eb =>
      rw [hxe] at hc
      simp only [Except.map, ok_bind] at hc
      cases hcb : DataParser.hexToBuffer data.cmac "CMAC data" with
      | error e0 =>
          rw [hcb, err_bind] at hc
          cases hc
          exact hexToBuffer_err_msg _ _ _ hcb
      | ok cb =>
      rw [hcb, ok_bind] at hc
      cases hprof : opts.sdmProfile with
      | byName s =>
          rw [hprof] at hc
          cases hg : SDMConfig.getProfile (.jstr s) with
          | error e0 =>
              simp only [hg, err_bind] at hc
              cases hc
              exact getProfile_err_msg _ _ hg
          | ok cfg =>
              simp only [hg, ok_bind] at hc
              exact performDecryption_err_msg _ _ _ _ _ _ _ _ hc
      | byObj p =>
          rw [hprof] at hc
          simp only [pure_ok, ok_bind] at hc
          exact performDecryption_err_msg _ _ _ _ _ _ _ _ hc

theorem decryptCore_err_msg (P : CryptoPrims) (U : UrlLib) (mkB : Bytes)
    (opts : DecoderOptions) (input : DecInput) (e : JsError)
    (hc : Decoder.decryptCore P U mkB opts input = .error e) : e.message ≠ "" := by
  rw [Decoder.decryptCore] at hc
  cases hp : Decoder.parseInput U input with
  | error e0 =>
      rw [hp, err_bind] at hc
      cases hc
      exact parseInput_err_msg _ _ _ hp
  | ok data =>
  rw [hp, ok_bind] at hc
  cases hsv : opts.strictValidation with
  | false =>
      simp only [hsv, Bool.false_eq_true, if_false, ite_false, pure_ok, ok_bind] at hc
      exact decryptTail_err_msg P mkB opts data e hc
  | true =>
      rw [hsv] at hc
      cases hv : Decoder.validateInput data with
      | error e0 =>
          simp only [if_true, hv, err_bind] at hc
          cases hc
          exact validateInput_err_msg _ _ hv
      | ok u =>
          cases u
          simp only [if_true, hv, ok_bind] at hc
          exact decryptTail_err_msg P mkB opts data e hc


theorem performBody_err_msg (P : CryptoPrims) (mkB pb : Bytes)
    (ebOpt : Option Bytes) (cb : Bytes) (cfg : SDMProfile) (opts : DecoderOptions)
    (e : JsError)
    (h : Decoder2.performBody P mkB pb ebOpt cb cfg opts = .error e) :
    e.message ≠ "" := by
  rw [Decoder2.performBody] at h
  cases hd : Decoder2.deriveKeys P mkB (zeros 7) (zeros 3) opts.keyDerivationMethod with
  | error e0 =>
      rw [hd, err_bind] at h
      cases h
      exact deriveKeys2_err_msg _ _ _ _ _ _ hd
  | ok sk =>
  rw [hd, ok_bind] at h
  cases hdp : AES.cbcDecrypt P sk.encKey pb with
  | error e0 =>
      rw [hdp, err_bind] at h
      cases h
      exact cbcDecrypt_err_msg _ _ _ _ hdp
  | ok dp =>
  rw [hdp, ok_bind] at h
  cases hval : Decoder.isValidDecryption dp (DataParser.extractPiccData dp cfg) with
  | false =>
      simp only [hval] at h
      simp only [Bool.false_eq_true, not_false_iff, if_true, throw_bind] at h
      cases h
      decide
  | true =>
  simp only [hval, eq_self_iff_true, not_true, Bool.false_eq_true, if_false,
    ite_false] at h
  cases ebOpt with
  | none =>
      cases hvc : opts.validateCMAC with
      | false =>
          simp only [hvc, Bool.false_eq_true, if_false, ite_false, pure_ok,
            ok_bind] at h
          cases h
      | true =>
          simp only [hvc, if_true, pure_ok, ok_bind] at h
          cases hm : CMAC.calculate P sk.macKey (pb ++ []) with
          | ok mac =>
              simp only [hm, pure_ok, ok_bind, Option.getD] at h
              cases h
          | error e0 =>
              simp only [hm, throw_bind, err_bind, Option.getD] at h
              cases h
              exact str_append_ne_left _ _ (by decide)
  | some eb =>
      cases hif : cfg.includeFileData with
      | false =>
          simp only [hif, Bool.false_eq_true, not_false_iff, if_true,
            throw_bind] at h
          cases h
          exact str_append_ne_right _ _ (by decide)
      | true =>
          simp only [hif, eq_self_iff_true, not_true, Bool.false_eq_true,
            if_false, ite_false] at h
          cases hde : AES.cbcDecrypt P sk.encKey eb with
          | error e0 =>
              simp only [hde, throw_bind, err_bind] at h
              cases h
              exact str_append_ne_left _ _ (by decide)
          | ok de =>
              simp only [hde, pure_ok, ok_bind] at h
              cases hvc : opts.validateCMAC with
              | false =>
                  simp only [hvc, Bool.false_eq_true, if_false, ite_false,
                    pure_ok, ok_bind] at h
                  cases h
              | true =>
                  simp only [hvc, if_true, pure_ok, ok_bind] at h
                  cases hm : CMAC.calculate P sk.macKey (pb ++ eb) with
                  | ok mac =>
                      simp only [hm, pure_ok, ok_bind, Option.getD] at h
                      cases h
                  | error e0 =>
                      simp only [hm, throw_bind, err_bind, Option.getD] at h
                      cases h
                      exact str_append_ne_left _ _ (by decide)

theorem performSecure_err_msg (P : CryptoPrims) (mkB : Bytes)
    (data : ParsedData) (cfg : SDMProfile) (opts : DecoderOptions) (e : JsError)
    (h : Decoder2.performSecureDecryption P mkB data cfg opts = .error e) :
    e.message ≠ "" := by
  rw [Decoder2.performSecureDecryption] at h
  cases hpb : Decoder2.hexToBuffer data.picc "PICC data" with
  | error e0 =>
      rw [hpb, err_bind] at h
      cases h
      rw [Decoder2.hexToBuffer] at hpb
      cases hx : DataParser.hexToBuffer data.picc "PICC data" with
      | ok v => rw [hx] at hpb; cases hpb
      | error e1 =>
          rw [hx] at hpb
          cases hpb
          exact str_append_ne_left _ _ (by decide)
  | ok pb =>
  rw [hpb, ok_bind] at h
  cases ht : jsTruthyStr data.enc with
  | false =>
      simp only [ht, Bool.false_eq_true, if_false, ite_false, pure_ok, ok_bind] at h
      cases hcb : Decoder2.hexToBuffer data.cmac "CMAC data" with
      | error e0 =>
          rw [hcb, err_bind] at h
          cases h
          rw [Decoder2.hexToBuffer] at hcb
          cases hx : DataParser.hexToBuffer data.cmac "CMAC data" with
          | ok v => rw [hx] at hcb; cases hcb
          | error e1 =>
              rw [hx] at hcb
              cases hcb
              exact str_append_ne_left _ _ (by decide)
      | ok cb =>
      rw [hcb, ok_bind] at h
      cases hbody : Decoder2.performBody P mkB pb none cb cfg opts with
      | ok r => rw [hbody] at h; simp [exMapErr] at h
      | error e0 =>
          rw [hbody] at h
          simp only [exMapErr] at h
          have hmsg := performBody_err_msg P mkB pb none cb cfg opts e0 hbody
          cases e0 with
          | decryption m =>
              cases h
              exact hmsg
          | validation m => cases h; exact str_append_ne_left _ _ (by decide)
          | encryption m => cases h; exact str_append_ne_left _ _ (by decide)
          | sdmProfile m => cases h; exact str_append_ne_left _ _ (by decide)
          | security m => cases h; exact str_append_ne_left _ _ (by decide)
          | generic m => cases h; exact str_append_ne_left _ _ (by decide)
  | true =>
      simp only [ht, if_true] at h
      cases hxe : Decoder2.hexToBuffer data.enc "ENC data" with
      | error e0 =>
          rw [hxe] at h
          simp only [Except.map, err_bind] at h
          cases h
          rw [Decoder2.hexToBuffer] at hxe
          cases hx : DataParser.hexToBuffer data.enc "ENC data" with
          | ok v => rw [hx] at hxe; cases hxe
          | error e1 =>
              rw [hx] at hxe
              cases hxe
              exact str_append_ne_left _ _ (by decide)
      | ok eb =>
      rw [hxe] at h
      simp only [Except.map, ok_bind] at h
      cases hcb : Decoder2.hexToBuffer data.cmac "CMAC data" with
      | error e0 =>
          rw [hcb, err_bind] at h
          cases h
          rw [Decoder2.hexToBuffer] at hcb
          cases hx : DataParser.hexToBuffer data.cmac "CMAC data" with
          | ok v => rw [hx] at hcb; cases hcb
          | error e1 =>
              rw [hx] at hcb
              cases hcb
              exact str_append_ne_left _ _ (by decide)
      | ok cb =>
      rw [hcb, ok_bind] at h
      cases hbody : Decoder2.performBody P mkB pb (some eb) cb cfg opts with
      | ok r => rw [hbody] at h; simp [exMapErr] at h
      | error e0 =>
          rw [hbody] at h
          simp only [exMapErr] at h
          have hmsg := performBody_err_msg P mkB pb (some eb) cb cfg opts e0 hbody
          cases e0 with
          | decryption m =>
              cases h
              exact hmsg
          | validation m => cases h; exact str_append_ne_left _ _ (by decide)
          | encryption m => cases h; exact str_append_ne_left _ _ (by decide)
          | sdmProfile m => cases h; exact str_append_ne_left _ _ (by decide)
          | security m => cases h; exact str_append_ne_left _ _ (by decide)
          | generic m => cases h; exact str_append_ne_left _ _ (by decide)


theorem validateOp_err_msg (op : String) (p : SDMProfile) (d : SDMConfig.OpData)
    (e : JsError) (h : SDMConfig.validateOperationWithProfile op p d = .error e) :
    e.message ≠ "" := by
  simp only [SDMConfig.validateOperationWithProfile] at h
  split_ifs at h <;> (cases h; exact str_append_ne_left _ _ (by decide))

theorem decryptCore2_err_msg (P : CryptoPrims) (U : UrlLib) (mkB : Bytes)
    (opts : DecoderOptions) (input : DecInput) (e : JsError)
    (hc : Decoder2.decryptCore P U mkB opts input = .error e) : e.message ≠ "" := by
  rw [Decoder2.decryptCore] at hc
  cases hp : Decoder2.parseInput U input with
  | error e0 =>
      rw [hp, err_bind] at hc
      cases hc
      exact parseInput2_err_msg _ _ _ hp
  | ok data =>
  rw [hp, ok_bind] at hc
  cases hprof : opts.sdmProfile with
  | byName s =>
      rw [hprof] at hc
      cases hg : SDMConfig.getProfile (.jstr s) with
      | error e0 =>
          simp only [hg, err_bind] at hc
          cases hc
          exact getProfile_err_msg _ _ hg
      | ok cfg =>
          simp only [hg, ok_bind] at hc
          cases hvo : SDMConfig.validateOperationWithProfile "decrypt" cfg
              { picc := data.picc, enc := data.enc, cmac := data.cmac } with
          | error e0 =>
              rw [hvo, err_bind] at hc
              cases hc
              exact validateOp_err_msg _ _ _ _ hvo
          | ok u =>
              cases u
              rw [hvo, ok_bind] at hc
              exact performSecure_err_msg _ _ _ _ _ _ hc
  | byObj p =>
      rw [hprof] at hc
      simp only [pure_ok, ok_bind] at hc
      cases hvo : SDMConfig.validateOperationWithProfile "decrypt" p
          { picc := data.picc, enc := data.enc, cmac := data.cmac } with
      | error e0 =>
          rw [hvo, err_bind] at hc
          cases hc
          exact validateOp_err_msg _ _ _ _ hvo
      | ok u =>
          cases u
          rw [hvo, ok_bind] at hc
          exact performSecure_err_msg _ _ _ _ _ _ hc


/-- Claim C7: for every input passed to `Decoder.decrypt` (either copy), the
method never throws: the result is always a structured object, either
`success = true`, or `success = false` carrying a non-empty error message. -/
theorem claim_C7_never_throws :
    ∀ (P : CryptoPrims) (U : UrlLib) (dec : Decoder) (input : DecInput),
      ((Decoder.decrypt P U dec input).success = true ∨
       ((Decoder.decrypt P U dec input).success = false ∧
        ∃ msg, (Decoder.decrypt P U dec input).error = some msg ∧ msg ≠ "")) ∧
      ((Decoder2.decrypt P U dec input).success = true ∨
       ((Decoder2.decrypt P U dec input).success = false ∧
        ∃ msg, (Decoder2.decrypt P U dec input).error = some msg ∧ msg ≠ "")) := by
  intro P U dec input
  constructor
  · rcases decrypt_cases P U dec input with ⟨r, hcore, hrec⟩ | ⟨e, hcore, hrec⟩
    · left
      rw [hrec]
    · right
      rw [hrec]
      exact ⟨rfl, e.message, rfl, decryptCore_err_msg P U dec.masterKey dec.options input e hcore⟩
  · rcases decrypt2_cases P U dec input with ⟨r, hcore, hrec⟩ | ⟨e, hcore, hrec⟩
    · left
      rw [hrec]
    · right
      rw [hrec]
      exact ⟨rfl, e.message, rfl, decryptCore2_err_msg P U dec.masterKey dec.options input e hcore⟩

/-- Claim C10: `SDMConfig.getProfile` falls back to the default `uidCounter`
profile on a `null`, `undefined`, empty-string or non-string name, resolves a
known name to its profile, and throws `SDMProfileError` exactly for a
non-empty unknown string name. -/
theorem claim_C10_getProfile_fallback :
    SDMConfig.getProfile .jnull = .ok SDMConfig.uidCounter ∧
    SDMConfig.getProfile .jundefined = .ok SDMConfig.uidCounter ∧
    SDMConfig.getProfile .jnonstring = .ok SDMConfig.uidCounter ∧
    SDMConfig.getProfile (.jstr "") = .ok SDMConfig.uidCounter ∧
    (∀ s p, SDMConfig.lookupProfile s = some p →
      SDMConfig.getProfile (.jstr s) = .ok p) ∧
    (∀ s, s ≠ "" → SDMConfig.lookupProfile s = none →
      SDMConfig.getProfile (.jstr s) =
        .error (.sdmProfile ("Unknown SDM profile: " ++ s))) := by
  refine ⟨rfl, rfl, rfl, rfl, ?_, ?_⟩
  · intro s p h
    by_cases hs : s = ""
    · subst hs
      simp [SDMConfig.lookupProfile, SDMConfig.profiles] at h
    · simp only [SDMConfig.getProfile, h]
      rw [if_neg (by simpa using hs)]
  · intro s hs h
    simp only [SDMConfig.getProfile, h]
    rw [if_neg (by simpa using hs)]

/-- Witness for C10: the unknown profile name `bogus` throws. -/
theorem claim_C10_witness :
    SDMConfig.getProfile (.jstr "bogus") =
      .error (.sdmProfile ("Unknown SDM profile: " ++ "bogus")) :=
  claim_C10_getProfile_fallback.2.2.2.2.2 "bogus" (by decide) (by decide)


/-- Claim C8: a numeric counter is accepted by the encoder exactly when it
lies in `[0, 16777215]`; an out-of-range counter fails validation with the
counter message before any cryptographic work, independently of the
primitives. -/
theorem claim_C8_counter_bounds :
    (∀ n : Int, 0 ≤ n → n ≤ 16777215 →
       Encoder.validateAndConvertCounter (.num n) = .ok (beBytes3 n.toNat)) ∧
    (∀ n : Int, n < 0 ∨ 16777215 < n →
       Encoder.validateAndConvertCounter (.num n) =
         .error (.validation
           "Counter must be an integer between 0 and 16777215 (2^24 - 1)")) ∧
    (∀ (P Q : CryptoPrims) (mk : String), mk.length = 32 →
       mk.toList.all isHexChar = true →
       ∀ ub : Bytes, ub.length = 7 →
       ∀ n : Int, n < 0 ∨ 16777215 < n →
       ∀ (fd : Option Bytes) (opts : EncOptions),
         Encoder.encrypt P mk (.buf ub) (.num n) fd opts =
           .error (.validation
             "Counter must be an integer between 0 and 16777215 (2^24 - 1)") ∧
         Encoder.encrypt P mk (.buf ub) (.num n) fd opts =
           Encoder.encrypt Q mk (.buf ub) (.num n) fd opts) := by
  refine ⟨?_, ?_, ?_⟩
  · intro n h0 h1
    exact convertCounter_num n h0 h1
  · intro n hn
    rw [Encoder.validateAndConvertCounter, if_pos hn]
  · intro P Q mk h32 hhex ub hub n hn fd opts
    refine ⟨encrypt_bad_counter P mk h32 hhex ub hub n hn fd opts, ?_⟩
    rw [encrypt_bad_counter P mk h32 hhex ub hub n hn fd opts,
      encrypt_bad_counter Q mk h32 hhex ub hub n hn fd opts]

/-- Witness for C8: the boundary counters behave as stated. -/
theorem claim_C8_witness :
    Encoder.validateAndConvertCounter (.num 0) = .ok (beBytes3 (0 : Int).toNat) ∧
    Encoder.validateAndConvertCounter (.num 16777215) =
      .ok (beBytes3 (16777215 : Int).toNat) ∧
    Encoder.validateAndConvertCounter (.num 16777216) =
      .error (.validation
        "Counter must be an integer between 0 and 16777215 (2^24 - 1)") ∧
    Encoder.validateAndConvertCounter (.num (-1)) =
      .error (.validation
        "Counter must be an integer between 0 and 16777215 (2^24 - 1)") ∧
    Encoder.encrypt idPrims mk32 (.buf [4,0,0,0,0,0,0]) (.num 16777216) none {} =
      .error (.validation
        "Counter must be an integer between 0 and 16777215 (2^24 - 1)") :=
  ⟨claim_C8_counter_bounds.1 0 (by decide) (by decide),
   claim_C8_counter_bounds.1 16777215 (by decide) (by decide),
   claim_C8_counter_bounds.2.1 16777216 (by decide),
   claim_C8_counter_bounds.2.1 (-1) (by decide),
   (claim_C8_counter_bounds.2.2 idPrims idPrims mk32 (by decide) (by decide)
     [4,0,0,0,0,0,0] (by decide) 16777216 (by decide) none {}).1⟩

/-- Counterexample for C9: the legacy encoder copy (part_006) stores the raw
master key string in `originalData.masterKey` of its output object. -/
theorem claim_C9_counterexample :
    ∃ r, EncoderSimple.encrypt idPrims mk32 (.buf [4,0,0,0,0,0,0]) (.num 0) none {} =
        .ok r ∧
      r.originalData.masterKey = mk32 ∧ mk32 ≠ "[REDACTED]" :=
  ⟨_, rfl, rfl, by decide⟩

/-- Claim C9 (amended): the validated encoder (part_005) always redacts the
master key in `originalData`, but the legacy copy (part_006) always stores
the raw master key string there. -/
theorem claim_C9_amended_redaction :
    (∀ (P : CryptoPrims) (mk : String) (u : UidArg) (c : CounterArg)
       (fd : Option Bytes) (opts : EncOptions) (r : EncResult),
       Encoder.encrypt P mk u c fd opts = .ok r →
       r.originalData.masterKey = "[REDACTED]") ∧
    (∀ (P : CryptoPrims) (mk : String) (u : UidArg) (c : CounterArg)
       (fd : Option Bytes) (opts : EncOptions) (r : SimpleEncResult),
       EncoderSimple.encrypt P mk u c fd opts = .ok r →
       r.originalData.masterKey = mk) := by
  constructor
  · intro P mk u c fd opts r h
    obtain ⟨sk, pd, _, _, hred, _⟩ := encrypt_ok_spine P mk u c fd opts r h
    exact hred
  · intro P mk u c fd opts r h
    obtain ⟨sk, pd, _, _, hraw, _⟩ := encoderSimple_ok_spine P mk u c fd opts r h
    exact hraw

/-- Witness for C9: the fixed validated-encoder run redacts the key. -/
theorem claim_C9_witness :
    encRes0.originalData.masterKey = "[REDACTED]" :=
  claim_C9_amended_redaction.1 idPrims mk32 (.buf [4,0,0,0,0,0,0]) (.num 0) none {}
    encRes0 rfl

/-- Claim C2: both codec directions derive their session keys from a single
zero-vector key-derivation call (7 zero bytes of UID, 3 zero bytes of
counter), so the derived pair depends only on the master key and the
derivation method. -/
theorem claim_C2_zero_vector :
    (∀ (P : CryptoPrims) (mk : String) (u : UidArg) (c : CounterArg)
       (fd : Option Bytes) (opts : EncOptions) (r : EncResult),
       Encoder.encrypt P mk u c fd opts = .ok r →
       ∃ sk, Encoder.deriveKeys P ((hexToBytes mk).getD []) (zeros 7) (zeros 3)
           opts.keyDerivationMethod = .ok sk ∧
         ∃ piccData, r.encryptedData.picc = bytesToHexUpper (P.cbcEnc sk.encKey piccData)) ∧
    (∀ (P : CryptoPrims) (U : UrlLib) (dec : Decoder) (input : DecInput),
       (Decoder.decrypt P U dec input).success = true →
       ∃ sk, Decoder.deriveKeys P dec.masterKey (zeros 7) (zeros 3)
           dec.options.keyDerivationMethod = .ok sk ∧
         (Decoder.decrypt P U dec input).sessionKeys =
           some { encKey := bytesToHexUpper sk.encKey
                  macKey := bytesToHexUpper sk.macKey
                  derivationMethod := sk.method }) := by
  constructor
  · intro P mk u c fd opts r h
    obtain ⟨sk, pd, hsk, _, _, hpicc, _⟩ := encrypt_ok_spine P mk u c fd opts r h
    exact ⟨sk, hsk, pd, hpicc⟩
  · intro P U dec input hs
    rcases decrypt_cases P U dec input with ⟨r, hcore, hrec⟩ | ⟨e, hcore, hrec⟩
    · obtain ⟨data, pb, ebOpt, cb, cfg, _, _, _, _, _, hperf⟩ :=
        decryptCore_ok_spine P U dec.masterKey dec.options input r hcore
      obtain ⟨sk, dp, hsk, _, _, _, _, _, hskeys, _⟩ :=
        performDecryption_ok_spine P dec.masterKey pb ebOpt cb cfg dec.options r hperf
      refine ⟨sk, hsk, ?_⟩
      rw [hrec]
      simpa using congrArg some hskeys
    · rw [hrec] at hs
      simp at hs

/-- Witness for C2: the fixed validated-encoder run derives its keys from the
zero vector. -/
theorem claim_C2_witness :
    ∃ sk, Encoder.deriveKeys idPrims ((hexToBytes mk32).getD []) (zeros 7) (zeros 3)
        ({} : EncOptions).keyDerivationMethod = .ok sk ∧
      ∃ piccData, encRes0.encryptedData.picc =
        bytesToHexUpper (idPrims.cbcEnc sk.encKey piccData) :=
  claim_C2_zero_vector.1 idPrims mk32 (.buf [4,0,0,0,0,0,0]) (.num 0) none {}
    encRes0 rfl

/-- Claim C3: structural validation of the decrypted PICC block holds exactly
when the tag byte is `0xC7`, the block has at least 11 bytes, the extracted
UID (when present) starts with `0x04` and the extracted counter (when
present) lies in `[0, 16777215]`; every successful decode passed it. -/
theorem claim_C3_structural :
    (∀ (dp : Bytes) (info : PiccInfo),
       Decoder.isValidDecryption dp info = true ↔
         (info.dataTag = some 0xC7 ∧ 11 ≤ dp.length ∧
          (∀ u, info.uid = some u → u.head? = some 0x04) ∧
          (∀ n : Int, info.readCounterInt = some n → 0 ≤ n ∧ n ≤ 16777215))) ∧
    (∀ (P : CryptoPrims) (U : UrlLib) (dec : Decoder) (input : DecInput),
       (Decoder.decrypt P U dec input).success = true →
       ∃ pi, (Decoder.decrypt P U dec input).piccInfo = some pi ∧
         Decoder.isValidDecryption pi.raw pi = true) := by
  constructor
  · exact isValid_iff
  · intro P U dec input hs
    rcases decrypt_cases P U dec input with ⟨r, hcore, hrec⟩ | ⟨e, hcore, hrec⟩
    · obtain ⟨data, pb, ebOpt, cb, cfg, _, _, _, _, _, hperf⟩ :=
        decryptCore_ok_spine P U dec.masterKey dec.options input r hcore
      obtain ⟨sk, dp, _, _, _, hval, _⟩ :=
        performDecryption_ok_spine P dec.masterKey pb ebOpt cb cfg dec.options r hperf
      refine ⟨r.piccInfo, ?_, hval⟩
      rw [hrec]
    · rw [hrec] at hs
      simp at hs

/-- Witness for C3: a well-formed 16-byte block passes validation via the
characterisation. -/
theorem claim_C3_witness :
    Decoder.isValidDecryption ([0xC7,4,0,0,0,0,0,0,0,0,0] ++ zeros 5)
      (DataParser.extractPiccData ([0xC7,4,0,0,0,0,0,0,0,0,0] ++ zeros 5)
        SDMConfig.uidCounter) = true :=
  (claim_C3_structural.1 _ _).mpr
    ⟨rfl, by decide, fun u hu => by cases hu; rfl, fun n hn => by cases hn; decide⟩

/-- Claim C4: every successful encode (either encoder copy) emits as `cmac`
exactly the first 8 bytes of the AES-CMAC computed under the MAC key of the
zero-vector-derived session keys over the PICC ciphertext (itself produced
under the derived encryption key) followed by the encrypted file data when
present. -/
theorem claim_C4_cmac_truncation :
    (∀ (P : CryptoPrims) (mk : String) (u : UidArg) (c : CounterArg)
       (fd : Option Bytes) (opts : EncOptions) (r : EncResult),
       Encoder.encrypt P mk u c fd opts = .ok r →
       ∃ (sk : SessionKeys) (piccData : Bytes) (encCipher : Option Bytes),
         Encoder.deriveKeys P ((hexToBytes mk).getD []) (zeros 7) (zeros 3)
           opts.keyDerivationMethod = .ok sk ∧
         sk.macKey.length = 16 ∧
         r.encryptedData.picc = bytesToHexUpper (P.cbcEnc sk.encKey piccData) ∧
         r.encryptedData.enc = encCipher.map bytesToHexUpper ∧
         r.encryptedData.cmac =
           bytesToHexUpper ((P.cmacFn sk.macKey
             (P.cbcEnc sk.encKey piccData ++ encCipher.getD [])).take 8)) ∧
    (∀ (P : CryptoPrims) (mk : String) (u : UidArg) (c : CounterArg)
       (fd : Option Bytes) (opts : EncOptions) (r : SimpleEncResult),
       EncoderSimple.encrypt P mk u c fd opts = .ok r →
       ∃ (sk : SessionKeys) (piccData : Bytes) (encCipher : Option Bytes),
         Decoder.deriveKeys P ((hexToBytes mk).getD []) (zeros 7) (zeros 3)
           opts.keyDerivationMethod = .ok sk ∧
         sk.macKey.length = 16 ∧
         r.encryptedData.picc = bytesToHexUpper (P.cbcEnc sk.encKey piccData) ∧
         r.encryptedData.enc = encCipher.map bytesToHexUpper ∧
         r.encryptedData.cmac =
           bytesToHexUpper ((P.cmacFn sk.macKey
             (P.cbcEnc sk.encKey piccData ++ encCipher.getD [])).take 8)) := by
  constructor
  · intro P mk u c fd opts r h
    obtain ⟨sk, pd, hsk, hmac, hred, hpicc, henc, hcmac⟩ :=
      encrypt_ok_spine P mk u c fd opts r h
    refine ⟨sk, pd,
      fd.map (fun f => P.cbcEnc sk.encKey (Encoder.prepareFileData f)),
      hsk, hmac, hpicc, ?_, hcmac⟩
    rw [henc]
    cases fd <;> rfl
  · intro P mk u c fd opts r h
    obtain ⟨sk, pd, hsk, hmac, hraw, hpicc, henc, hcmac⟩ :=
      encoderSimple_ok_spine P mk u c fd opts r h
    refine ⟨sk, pd,
      fd.map (fun f => P.cbcEnc sk.encKey (EncoderSimple.prepareFileData f)),
      hsk, hmac, hpicc, ?_, hcmac⟩
    rw [henc]
    cases fd <;> rfl

/-- Witness for C4: the fixed validated-encoder run has the truncated CMAC
under its zero-vector-derived MAC key. -/
theorem claim_C4_witness :
    ∃ (sk : SessionKeys) (piccData : Bytes) (encCipher : Option Bytes),
      Encoder.deriveKeys idPrims ((hexToBytes mk32).getD []) (zeros 7) (zeros 3)
        ({} : EncOptions).keyDerivationMethod = .ok sk ∧
      sk.macKey.length = 16 ∧
      encRes0.encryptedData.picc = bytesToHexUpper (idPrims.cbcEnc sk.encKey piccData) ∧
      encRes0.encryptedData.enc = encCipher.map bytesToHexUpper ∧
      encRes0.encryptedData.cmac =
        bytesToHexUpper ((idPrims.cmacFn sk.macKey
          (idPrims.cbcEnc sk.encKey piccData ++ encCipher.getD [])).take 8) :=
  claim_C4_cmac_truncation.1 idPrims mk32 (.buf [4,0,0,0,0,0,0]) (.num 0) none {}
    encRes0 rfl


/-- Claim C6: `success` and `cmacValid` are independent signals: every
successful decode reports `cmacValid` purely as the outcome of the truncated
CMAC comparison (with all decoded fields populated and no error), and a
decode can return `success = true` with `cmacValid = some false`. -/
theorem claim_C6_flags_independent :
    (∀ (P : CryptoPrims) (U : UrlLib) (dec : Decoder) (input : DecInput),
       (Decoder.decrypt P U dec input).success = true →
       ∃ (sk : SessionKeys) (pb : Bytes) (ebOpt : Option Bytes) (cb : Bytes),
         (Decoder.decrypt P U dec input).error = none ∧
         (Decoder.decrypt P U dec input).sessionKeys =
           some { encKey := bytesToHexUpper sk.encKey
                  macKey := bytesToHexUpper sk.macKey
                  derivationMethod := sk.method } ∧
         (∃ pi, (Decoder.decrypt P U dec input).piccInfo = some pi) ∧
         (Decoder.decrypt P U dec input).cmacValid =
           some (if dec.options.validateCMAC then
             CMAC.verify P sk.macKey (pb ++ ebOpt.getD []) cb else true)) ∧
    (∃ (dec : Decoder) (input : DecInput),
       (Decoder.decrypt idPrims idUrlLib dec input).success = true ∧
       (Decoder.decrypt idPrims idUrlLib dec input).cmacValid = some false) := by
  constructor
  · intro P U dec input hs
    rcases decrypt_cases P U dec input with ⟨r, hcore, hrec⟩ | ⟨e, hcore, hrec⟩
    · obtain ⟨data, pb, ebOpt, cb, cfg, _, _, _, _, _, hperf⟩ :=
        decryptCore_ok_spine P U dec.masterKey dec.options input r hcore
      obtain ⟨sk, dp, _, _, _, _, _, _, hskeys, hcm⟩ :=
        performDecryption_ok_spine P dec.masterKey pb ebOpt cb cfg dec.options r hperf
      refine ⟨sk, pb, ebOpt, cb, ?_, ?_, ⟨r.piccInfo, ?_⟩, ?_⟩
      · rw [hrec]
      · rw [hrec]
        simpa using congrArg some hskeys
      · rw [hrec]
      · rw [hrec]
        simpa using congrArg some hcm
    · rw [hrec] at hs
      simp at hs
  · exact ⟨dec6, in6, rfl, rfl⟩

/-- Witness for C6: the fixed mismatching decode is a success whose CMAC
comparison drives `cmacValid`. -/
theorem claim_C6_witness :
    ∃ (sk : SessionKeys) (pb : Bytes) (ebOpt : Option Bytes) (cb : Bytes),
      (Decoder.decrypt idPrims idUrlLib dec6 in6).error = none ∧
      (Decoder.decrypt idPrims idUrlLib dec6 in6).sessionKeys =
        some { encKey := bytesToHexUpper sk.encKey
               macKey := bytesToHexUpper sk.macKey
               derivationMethod := sk.method } ∧
      (∃ pi, (Decoder.decrypt idPrims idUrlLib dec6 in6).piccInfo = some pi) ∧
      (Decoder.decrypt idPrims idUrlLib dec6 in6).cmacValid =
        some (if dec6.options.validateCMAC then
          CMAC.verify idPrims sk.macKey (pb ++ ebOpt.getD []) cb else true) :=
  claim_C6_flags_independent.1 idPrims idUrlLib dec6 in6 rfl


theorem mkBytes_len (mk : String) (hmk32 : mk.length = 32)
    (hhex : mk.toList.all isHexChar = true) :
    ((hexToBytes mk).getD []).length = 16 := by
  obtain ⟨bs, hbs, hlen, _⟩ := hexToBytes_of_valid mk hhex (by omega)
  rw [hbs]
  simpa [hmk32] using hlen

theorem extractFileData_pad (fd : Bytes) (k : Nat) (hne : fd ≠ [])
    (hlast : fd.getLast? ≠ some 0) :
    Decoder.extractFileData (some (fd ++ zeros k)) = some fd := by
  rw [Decoder.extractFileData]
  rw [stripTrailingZeros_pad fd k hne hlast]
  rw [if_pos (by cases fd with | nil => exact absurd rfl hne | cons a t => simp)]

/-- Counterexample for C5: file data with the default `uidCounter` profile
fails, but the surfaced error is the `EncryptionError` rewrap, not an
`SDMProfileError`; and the legacy encoder copy (part_006) does not gate at
all and succeeds on the same input. -/
theorem claim_C5_counterexample :
    Encoder.encrypt idPrims mk32 (.buf [4,0,0,0,0,0,0]) (.num 0) (some [1])
        { sdmProfile := some (.byName "uidCounter") } =
      .error (.encryption ("Encryption failed: " ++ ("SDM profile validation failed: " ++
        ("Profile " ++ "uidCounter" ++
         " does not support file data encryption. Use full profile instead.")))) ∧
    (∀ msg, Encoder.encrypt idPrims mk32 (.buf [4,0,0,0,0,0,0]) (.num 0) (some [1])
        { sdmProfile := some (.byName "uidCounter") } ≠ .error (.sdmProfile msg)) ∧
    (∃ r, EncoderSimple.encrypt idPrims mk32 (.buf [4,0,0,0,0,0,0]) (.num 0) (some [1])
        { sdmProfile := some (.byName "uidCounter") } = .ok r) := by
  have h1 : Encoder.encrypt idPrims mk32 (.buf [4,0,0,0,0,0,0]) (.num 0) (some [1])
        { sdmProfile := some (.byName "uidCounter") } =
      .error (.encryption ("Encryption failed: " ++ ("SDM profile validation failed: " ++
        ("Profile " ++ "uidCounter" ++
         " does not support file data encryption. Use full profile instead.")))) := rfl
  refine ⟨h1, ?_, ⟨_, rfl⟩⟩
  intro msg h
  rw [h1] at h
  simp at h

/-- Claim C5 (amended): with valid inputs, file data on a profile that
rejects it always fails, but the `SDMProfileError` surfaces wrapped as an
`EncryptionError`; the `full` profile succeeds and round-trips the file
data; and the legacy encoder copy has no gate at all. -/
theorem claim_C5_gate_and_roundtrip :
    (∀ (P : CryptoPrims) (mk : String), mk.length = 32 →
       mk.toList.all isHexChar = true →
       ∀ ub : Bytes, ub.length = 7 → ∀ cb : Bytes, cb.length = 3 →
       ∀ (fd : Bytes) (p : SDMProfile), p.includeFileData = false → ∀ m : String,
         Encoder.encrypt P mk (.buf ub) (.buf cb) (some fd)
           { keyDerivationMethod := m, sdmProfile := some (.byObj p) } =
         .error (.encryption ("Encryption failed: " ++ ("SDM profile validation failed: " ++
           ("Profile " ++ p.name ++
            " does not support file data encryption. Use full profile instead."))))) ∧
    (∀ (P : CryptoPrims) (U : UrlLib) (mk : String), mk.length = 32 →
       mk.toList.all isHexChar = true →
       ∀ b c d e f g : Nat, (∀ w ∈ [b,c,d,e,f,g], w < 256) →
       ∀ n : Int, 0 ≤ n → n ≤ 16777215 →
       ∀ fd : Bytes, fd ≠ [] → fd.getLast? ≠ some 0 → (∀ w ∈ fd, w < 256) →
       ∀ m : String, m ∈ validMethods →
       ∃ (er : EncResult) (dec : Decoder),
         Encoder.encrypt P mk (.buf [4,b,c,d,e,f,g]) (.num n) (some fd)
           { keyDerivationMethod := m } = .ok er ∧
         Decoder.mk? mk { keyDerivationMethod := m, sdmProfile := .byName "full",
                          validateCMAC := true, strictValidation := false } = .ok dec ∧
         (Decoder.decrypt P U dec
           (.obj { picc := some er.encryptedData.picc
                   enc := er.encryptedData.enc
                   cmac := some er.encryptedData.cmac })).success = true ∧
         (Decoder.decrypt P U dec
           (.obj { picc := some er.encryptedData.picc
                   enc := er.encryptedData.enc
                   cmac := some er.encryptedData.cmac })).encryptedFileData = some fd) ∧
    (∀ (P : CryptoPrims) (mk : String), mk.length = 32 →
       mk.toList.all isHexChar = true →
       ∀ b c d e f g : Nat, ∀ n : Int, 0 ≤ n → n ≤ 16777215 →
       ∀ fd : Bytes, ∀ m : String, m ∈ validMethods →
       ∃ r, EncoderSimple.encrypt P mk (.buf [4,b,c,d,e,f,g]) (.num n) (some fd)
           { keyDerivationMethod := m, sdmProfile := some (.byName "uidCounter") } = .ok r ∧
         r.originalData.fileData = some fd) := by
  refine ⟨?_, ?_, ?_⟩
  · intro P mk h32 hhexx ub hub cb hcb fd p hp m
    exact encrypt_fd_gate P mk h32 hhexx ub hub cb hcb fd p hp m
  · intro P U mk h32 hhexx b c d e f g hb n h0 h1 fd hne hlast hfdb m hm
    have hmkb : ((hexToBytes mk).getD []).length = 16 := mkBytes_len mk h32 hhexx
    obtain ⟨sk, hdisp, he16, hm16⟩ :=
      dispatch_keys P ((hexToBytes mk).getD []) (zeros 7) (zeros 3) m hmkb hm
    have hctr := convertCounter_num n h0 h1
    have henc := encrypt_closed_file P mk h32 hhexx 4 b c d e f g (.num n) _ _ _ hctr
      fd m sk hdisp he16 hm16
    refine ⟨_, _, henc,
      mk?_ok_byName mk h32 hhexx m hm "full" (by decide) true false, ?_⟩
    have hD16 : (Encoder.prepareFileData fd).length % 16 = 0 := by
      simp only [Encoder.prepareFileData, List.length_append, zeros,
        List.length_replicate]
      omega
    have hDb : ∀ w ∈ Encoder.prepareFileData fd, w < 256 := by
      intro w hw
      rcases List.mem_append.1 hw with h | h
      · exact hfdb w h
      · have : w = 0 := List.eq_of_mem_replicate h
        omega
    have hx : n.toNat / 65536 % 256 < 256 := Nat.mod_lt _ (by decide)
    have hy : n.toNat / 256 % 256 < 256 := Nat.mod_lt _ (by decide)
    have hz : n.toNat % 256 < 256 := Nat.mod_lt _ (by decide)
    have hbytes : ∀ w ∈ [b,c,d,e,f,g, n.toNat / 65536 % 256, n.toNat / 256 % 256,
        n.toNat % 256], w < 256 := by
      intro w hw
      simp only [List.mem_cons, List.not_mem_nil, or_false] at hw
      rcases hw with rfl | rfl | rfl | rfl | rfl | rfl | rfl | rfl | rfl <;>
        first
          | exact Nat.mod_lt _ (by decide)
          | exact hb _ (by simp)
    have hMne : ((P.cmacFn sk.macKey
        (P.cbcEnc sk.encKey ([0xC7,4,b,c,d,e,f,g, n.toNat / 65536 % 256,
          n.toNat / 256 % 256, n.toNat % 256] ++ zeros 5) ++
         P.cbcEnc sk.encKey (Encoder.prepareFileData fd))).take 8) ≠ [] := by
      intro hc
      have := congrArg List.length hc
      simp [List.length_take, P.cmacFn_len] at this
    have hMb : ∀ w ∈ ((P.cmacFn sk.macKey
        (P.cbcEnc sk.encKey ([0xC7,4,b,c,d,e,f,g, n.toNat / 65536 % 256,
          n.toNat / 256 % 256, n.toNat % 256] ++ zeros 5) ++
         P.cbcEnc sk.encKey (Encoder.prepareFileData fd))).take 8), w < 256 := by
      intro w hw
      exact P.cmacFn_bytes _ _ w (List.mem_of_mem_take hw)
    have hdec := decrypt_closed_full P U ((hexToBytes mk).getD []) true m sk hdisp
      he16 hm16 b c d e f g (n.toNat / 65536 % 256) (n.toNat / 256 % 256)
      (n.toNat % 256) hbytes (Encoder.prepareFileData fd) hD16 hDb _ hMne hMb
    constructor
    · exact congrArg DecodeResult.success hdec
    · have h2 := congrArg DecodeResult.encryptedFileData hdec
      have h3 : Decoder.extractFileData (some (Encoder.prepareFileData fd)) = some fd :=
        extractFileData_pad fd _ hne hlast
      exact h2.trans h3
  · intro P mk h32 hhexx b c d e f g n h0 h1 fd m hm
    have hmkb : ((hexToBytes mk).getD []).length = 16 := mkBytes_len mk h32 hhexx
    obtain ⟨sk, hdisp, he16, hm16⟩ :=
      dispatch_keys P ((hexToBytes mk).getD []) (zeros 7) (zeros 3) m hmkb hm
    have hctr := convertCounter_num n h0 h1
    exact ⟨_, encoderSimple_closed P mk h32 4 b c d e f g (.num n) _ _ _ hctr
      fd m sk hdisp hm16, rfl⟩

/-- Witness for C5: the gate fires on the concrete `uidCounter` profile
object, surfacing as the wrapped `EncryptionError`. -/
theorem claim_C5_witness :
    Encoder.encrypt idPrims mk32 (.buf [4,0,0,0,0,0,0]) (.buf [0,0,0]) (some [1])
      { keyDerivationMethod := "hkdf", sdmProfile := some (.byObj SDMConfig.uidCounter) } =
    .error (.encryption ("Encryption failed: " ++ ("SDM profile validation failed: " ++
      ("Profile " ++ SDMConfig.uidCounter.name ++
       " does not support file data encryption. Use full profile instead.")))) :=
  claim_C5_gate_and_roundtrip.1 idPrims mk32 (by decide) (by decide)
    [4,0,0,0,0,0,0] (by decide) [0,0,0] (by decide) [1] SDMConfig.uidCounter
    (by decide) "hkdf"


/-- Claim C1: encode/decode round trip. For every valid master key, 7-byte
UID led by `0x04`, counter in `[0, 16777215]` and listed derivation method,
encoding and then decoding the emitted fields with a matching decoder yields
`success = true`, `cmacValid = some true`, the original UID (upper-case hex)
and the original counter. -/
theorem claim_C1_roundtrip (P : CryptoPrims) (U : UrlLib) (mk : String)
    (hmk32 : mk.length = 32) (hhex : mk.toList.all isHexChar = true)
    (b c d e f g : Nat) (hb : ∀ w ∈ [b,c,d,e,f,g], w < 256)
    (n : Int) (h0 : 0 ≤ n) (h1 : n ≤ 16777215)
    (m : String) (hm : m ∈ validMethods) :
    ∃ (er : EncResult) (dec : Decoder),
      Encoder.encrypt P mk (.buf [4,b,c,d,e,f,g]) (.num n) none
        { keyDerivationMethod := m } = .ok er ∧
      Decoder.mk? mk { keyDerivationMethod := m, sdmProfile := .byName "uidCounter",
                       validateCMAC := true, strictValidation := false } = .ok dec ∧
      (Decoder.decrypt P U dec (.obj { picc := some er.encryptedData.picc,
                                       enc := er.encryptedData.enc,
                                       cmac := some er.encryptedData.cmac })).success = true ∧
      (Decoder.decrypt P U dec (.obj { picc := some er.encryptedData.picc,
                                       enc := er.encryptedData.enc,
                                       cmac := some er.encryptedData.cmac })).cmacValid = some true ∧
      (Decoder.decrypt P U dec (.obj { picc := some er.encryptedData.picc,
                                       enc := er.encryptedData.enc,
                                       cmac := some er.encryptedData.cmac })).uid =
        some (bytesToHexUpper [4,b,c,d,e,f,g]) ∧
      (Decoder.decrypt P U dec (.obj { picc := some er.encryptedData.picc,
                                       enc := er.encryptedData.enc,
                                       cmac := some er.encryptedData.cmac })).readCounter = some n := by
  have hmkb : ((hexToBytes mk).getD []).length = 16 := mkBytes_len mk hmk32 hhex
  obtain ⟨sk, hdisp, he16, hm16⟩ :=
    dispatch_keys P ((hexToBytes mk).getD []) (zeros 7) (zeros 3) m hmkb hm
  have hctr := convertCounter_num n h0 h1
  have henc := encrypt_closed P mk hmk32 hhex 4 b c d e f g (.num n) _ _ _ hctr
    m sk hdisp he16 hm16
  refine ⟨_, _, henc,
    mk?_ok_byName mk hmk32 hhex m hm "uidCounter" (by decide) true false,
    ?_, ?_, ?_, ?_⟩
  all_goals {
    have hbytes : ∀ w ∈ [b,c,d,e,f,g, n.toNat / 65536 % 256, n.toNat / 256 % 256,
        n.toNat % 256], w < 256 := by
      intro w hw
      simp only [List.mem_cons, List.not_mem_nil, or_false] at hw
      rcases hw with rfl | rfl | rfl | rfl | rfl | rfl | rfl | rfl | rfl <;>
        first
          | exact Nat.mod_lt _ (by decide)
          | exact hb _ (by simp)
    have hMne : ((P.cmacFn sk.macKey
        (P.cbcEnc sk.encKey ([0xC7,4,b,c,d,e,f,g, n.toNat / 65536 % 256,
          n.toNat / 256 % 256, n.toNat % 256] ++ zeros 5))).take 8) ≠ [] := by
      intro hc
      have := congrArg List.length hc
      simp [List.length_take, P.cmacFn_len] at this
    have hMb : ∀ w ∈ ((P.cmacFn sk.macKey
        (P.cbcEnc sk.encKey ([0xC7,4,b,c,d,e,f,g, n.toNat / 65536 % 256,
          n.toNat / 256 % 256, n.toNat % 256] ++ zeros 5))).take 8), w < 256 := by
      intro w hw
      exact P.cmacFn_bytes _ _ w (List.mem_of_mem_take hw)
    have hdec := decrypt_closed_uidCounter P U ((hexToBytes mk).getD []) true m sk
      hdisp he16 hm16 b c d e f g (n.toNat / 65536 % 256) (n.toNat / 256 % 256)
      (n.toNat % 256) hbytes _ hMne hMb
    first
      | exact congrArg DecodeResult.success hdec
      | · have h2 := congrArg DecodeResult.cmacValid hdec
          have hv := verify_trunc8 P sk.macKey
            (P.cbcEnc sk.encKey ([0xC7,4,b,c,d,e,f,g, n.toNat / 65536 % 256,
              n.toNat / 256 % 256, n.toNat % 256] ++ zeros 5)) hm16
          simp only [List.cons_append, List.nil_append] at hv
          exact h2.trans (by simp [hv])
      | exact congrArg DecodeResult.uid hdec
      | · have h2 := congrArg DecodeResult.readCounter hdec
          have hr : readUIntBE [n.toNat / 65536 % 256, n.toNat / 256 % 256,
              n.toNat % 256] 3 = n.toNat := readUIntBE_beBytes3 n.toNat (by omega)
          refine h2.trans ?_
          rw [hr]
          exact congrArg some (Int.toNat_of_nonneg h0) }

/-- Witness for C1: a concrete round trip under the concrete primitives. -/
theorem claim_C1_witness :
    ∃ (er : EncResult) (dec : Decoder),
      Encoder.encrypt idPrims mk32 (.buf [4,0,0,0,0,0,0]) (.num 5) none
        { keyDerivationMethod := "hkdf" } = .ok er ∧
      Decoder.mk? mk32 { keyDerivationMethod := "hkdf", sdmProfile := .byName "uidCounter",
                         validateCMAC := true, strictValidation := false } = .ok dec ∧
      (Decoder.decrypt idPrims idUrlLib dec (.obj { picc := some er.encryptedData.picc,
                                                    enc := er.encryptedData.enc,
                                                    cmac := some er.encryptedData.cmac })).success = true ∧
      (Decoder.decrypt idPrims idUrlLib dec (.obj { picc := some er.encryptedData.picc,
                                                    enc := er.encryptedData.enc,
                                                    cmac := some er.encryptedData.cmac })).cmacValid = some true ∧
      (Decoder.decrypt idPrims idUrlLib dec (.obj { picc := some er.encryptedData.picc,
                                                    enc := er.encryptedData.enc,
                                                    cmac := some er.encryptedData.cmac })).uid =
        some (bytesToHexUpper [4,0,0,0,0,0,0]) ∧
      (Decoder.decrypt idPrims idUrlLib dec (.obj { picc := some er.encryptedData.picc,
                                                    enc := er.encryptedData.enc,
                                                    cmac := some er.encryptedData.cmac })).readCounter = some 5 :=
  claim_C1_roundtrip idPrims idUrlLib mk32 (by decide) (by decide)
    0 0 0 0 0 0 (by decide) 5 (by decide) (by decide) "hkdf" (by decide)
